import Mathlib

/-!
# Verification of the voicecontroll audio segmentation pipeline

Shallow embedding of the streaming capture → voice-activity-detection →
utterance-segmentation → dispatch pipeline of the repository, covering:

* `src/agent/voice_processor.py` (`VoiceProcessor`): the capture pipeline's
  processing loop, activity detector, recording start/stop, dispatch gate and
  the ring buffer (`deque(maxlen=sample_rate*30)`).
* `src/scripts/voxtral_tray_gtk.py` (`VoxtralTrayGTK`): the continuous
  dictation loop and its activity detector.
* `src/scripts/voxtral_tray_stable.py` (`StableVoxtralTray`): the stable
  continuous loop and `_process_audio_stable`.

Modelling conventions:

* Audio samples are exact rationals (`ℚ`); the Python code uses `float32`,
  whose rounding is irrelevant to the control flow verified here.  `NaN`/`Inf`
  are not representable in `ℚ`; the code paths guarded by `np.isnan`/`np.isinf`
  checks are therefore never taken in the model, matching runs on finite data.
* Wall-clock times (`time.time()`) are passed in as an explicit rational
  timestamp per processed frame, since the loops are driven by external time.
* The WebRTC VAD classifier (`webrtcvad.Vad.is_speech`) is an external C
  library; it is modelled as an oracle `List ℤ → Option Bool` on the 16-bit
  PCM samples handed to it, where `none` models the classifier raising an
  exception (the code's `except` path that falls back to energy detection).
* The comparison `rms_energy > threshold`, with
  `rms_energy = sqrt(mean(frame**2))`, is embedded as
  `threshold^2 < meanSq frame`.  All thresholds in the repository are
  positive (0.01, 0.015, 0.02), for which the two are equivalent, and this
  avoids irrational square roots.
* The 16-bit cast `np.astype(np.int16)` truncates toward zero and wraps
  modulo 2^16 on out-of-range values; it is modelled by `wrap16 ∘ truncQ`.
-/

/-- Sum of squares of a list of samples. -/
def sumSq (l : List ℚ) : ℚ := (l.map (fun x => x * x)).sum

/-- Model of `np.mean(frame ** 2)`: mean of squares (0 for the empty frame,
Python value would be `NaN`, which compares false against any threshold just
as 0 does against the repository's positive thresholds). -/
def meanSq (l : List ℚ) : ℚ := sumSq l / l.length

/-- Truncation toward zero, the rounding used by `astype(np.int16)`. -/
def truncQ (q : ℚ) : ℤ := if 0 ≤ q then ⌊q⌋ else ⌈q⌉

/-- Wrap an integer into the signed 16-bit range, the overflow behaviour of
the C cast performed by `astype(np.int16)`. -/
def wrap16 (z : ℤ) : ℤ := (z + 32768) % 65536 - 32768

/-- Model of `np.clip(x, -1.0, 1.0)`. -/
def clipQ (x : ℚ) : ℚ := max (-1) (min 1 x)

/-- PCM conversion in `VoiceProcessor._detect_voice_activity`
(voice_processor.py line 168): `(frame * 32767).astype(np.int16)` — scaling
with *no* clamping before the cast. -/
def pcmSampleAgent (x : ℚ) : ℤ := wrap16 (truncQ (x * 32767))

/-- PCM conversion in `VoxtralTrayGTK._detect_voice_activity`
(voxtral_tray_gtk.py lines 440–442): `np.clip(padded_data, -1.0, 1.0)` then
`(clamped_data * 32767).astype(np.int16)`. -/
def pcmSampleGtk (x : ℚ) : ℤ := wrap16 (truncQ (clipQ x * 32767))

/-- rms-energy test `np.sqrt(np.mean(frame ** 2)) > threshold`, embedded in
squared form (equivalent for the repository's positive thresholds). -/
def energyAboveThr (thr : ℚ) (frame : List ℚ) : Bool :=
  decide (thr ^ 2 < meanSq frame)

/-- Model of `VoiceProcessor._detect_voice_activity` (voice_processor.py 164–187).
The byte-length check `len(pcm_frame) != frame.shape[0] * 2` never fires
(int16 samples are exactly 2 bytes each), so it is not modelled.  A `none`
from the classifier oracle models `vad.is_speech` raising, in which case the
`except` branch returns the energy decision alone; otherwise the result is
`is_speech or energy_speech`. -/
def detectVoiceActivityAgent (vad : List ℤ → Option Bool) (thr : ℚ)
    (frame : List ℚ) : Bool :=
  let energy := energyAboveThr thr frame
  match vad (frame.map pcmSampleAgent) with
  | some b => b || energy
  | none => energy

/-- Value of `int(self.sample_rate * 0.1)`: expected chunk size of the GTK detector. -/
def expectedSamplesGtk (sr : ℕ) : ℕ := sr / 10

/-- Pad with zeros or truncate a frame to length `n`
(voxtral_tray_gtk.py lines 430–437). -/
def padTrunc (n : ℕ) (l : List ℚ) : List ℚ :=
  if l.length < n then l ++ List.replicate (n - l.length) 0 else l.take n

/-- Model of `VoxtralTrayGTK._detect_voice_activity` (voxtral_tray_gtk.py 409–466).
`vad? = none` models the caller passing `None` (as the continuous dictation
loop always does, since `vad_available = False`); a `none` from the oracle
models a WebRTC VAD exception, falling back to the energy decision.  The PCM
byte-size recheck never fires and is not modelled.  When the classifier is
consulted and answers, the decision is `vad_result and energy_threshold`. -/
def detectVoiceActivityGtk (vad? : Option (List ℤ → Option Bool)) (sr : ℕ)
    (thr : ℚ) (frame : List ℚ) : Bool :=
  if frame.length = 0 then false
  else
    let energy := energyAboveThr thr frame
    match vad? with
    | none => energy
    | some vad =>
      let padded := padTrunc (expectedSamplesGtk sr) frame
      match vad (padded.map pcmSampleGtk) with
      | some b => b && energy
      | none => energy

/-- Capacity of the capture ring buffer:
`deque(maxlen=int(self.sample_rate * 30))` (voice_processor.py line 40). -/
def audioBufferMaxlen (sampleRate : ℕ) : ℕ := sampleRate * 30

/-- Model of `deque.extend` on a deque with `maxlen = cap`: append at the tail and
silently discard the oldest elements from the head once the capacity is
exceeded.  This is the buffer write performed by
`VoiceProcessor._audio_callback` (voice_processor.py line 120). -/
def dequeExtendMax (cap : ℕ) (buf xs : List ℚ) : List ℚ :=
  (buf ++ xs).drop ((buf ++ xs).length - cap)

/-- Configuration fields of `VoiceProcessor.__init__` used by the loop, with
the repository's defaults (config/settings.py, voice section). -/
structure AgentConfig where
  sampleRate : ℕ := 16000
  silenceThreshold : ℚ := 1 / 100
  silenceDuration : ℚ := 2
deriving Repr, DecidableEq

/-- Mutable state of a `VoiceProcessor` relevant to segmentation, plus the
observables of a run.  `dispatched` records the utterances handed to the
transcription callback by `_process_audio`; `finalizeEvents` and `lastTime`
are specification ghosts (they record, for each finalization, the wall-clock
time and the `last_voice_time` at that moment, and the time of the last
processed frame); they influence no transition. -/
structure AgentState where
  isRecording : Bool := false
  lastVoiceTime : ℚ := 0
  recordingStartTime : ℚ := 0
  recordingBuffer : List ℚ := []
  dispatched : List (List ℚ) := []
  finalizeEvents : List (ℚ × ℚ) := []
  lastTime : ℚ := 0
deriving Repr, DecidableEq

/-- Model of `VoiceProcessor._process_audio` (voice_processor.py 217–233) up to the
callback invocation: drop the utterance when
`len(audio_data) / self.sample_rate < 0.5`, otherwise hand the samples to the
transcription callback.  Returns the samples given to the consumer, if any. -/
def processAudioAgent (cfg : AgentConfig) (audio : List ℚ) : Option (List ℚ) :=
  if (audio.length : ℚ) / (cfg.sampleRate : ℚ) < 1 / 2 then none else some audio

/-- The dispatch boundary of `_process_audio`: the whole body, including the
`await self.transcription_callback(...)`, runs inside `try/except`, so a
consumer exception (`Except.error`) is caught and logged and the result seen
by the segmentation side is identical to the success case. -/
def dispatchGateAgent (c : List ℚ → Except String Unit) (cfg : AgentConfig)
    (s : AgentState) (audio : List ℚ) : AgentState :=
  match processAudioAgent cfg audio with
  | none => s
  | some u =>
    match c u with
    | Except.ok _ => { s with dispatched := s.dispatched ++ [u] }
    | Except.error _ => { s with dispatched := s.dispatched ++ [u] }

/-- Model of `VoiceProcessor._stop_recording` (voice_processor.py 200–215): guard on
`is_recording`, clear the flag, hand the buffer to `_process_audio` when
non-empty (the code does this via `asyncio.create_task`), then clear the
buffer.  `t` is the current wall-clock time (used only by the ghost event
log). -/
def stopRecordingAgent (c : List ℚ → Except String Unit) (cfg : AgentConfig)
    (t : ℚ) (s : AgentState) : AgentState :=
  if s.isRecording then
    let s1 : AgentState :=
      { s with isRecording := false,
               finalizeEvents := s.finalizeEvents ++ [(t, s.lastVoiceTime)] }
    let s2 := if 0 < s1.recordingBuffer.length
              then dispatchGateAgent c cfg s1 s1.recordingBuffer else s1
    { s2 with recordingBuffer := [] }
  else s

/-- Model of `VoiceProcessor._start_recording` (voice_processor.py 189–198): set the
flag, record the start time, reset the accumulator. -/
def startRecordingAgent (t : ℚ) (s : AgentState) : AgentState :=
  if s.isRecording then s
  else { s with isRecording := true, recordingStartTime := t,
                recordingBuffer := [] }

/-- One iteration of `VoiceProcessor._processing_loop` (voice_processor.py
136–158) on an extracted frame: classify, then either refresh
`last_voice_time` / start recording / append, or, while recording in silence,
finalize once `current_time - last_voice_time >= silence_duration` and append
the frame otherwise. -/
def agentStep (c : List ℚ → Except String Unit) (cfg : AgentConfig)
    (vad : List ℤ → Option Bool) (s : AgentState) (tf : ℚ × List ℚ) :
    AgentState :=
  let t := tf.1
  let frame := tf.2
  let s0 : AgentState := { s with lastTime := t }
  if detectVoiceActivityAgent vad cfg.silenceThreshold frame then
    let s1 : AgentState := { s0 with lastVoiceTime := t }
    let s2 := startRecordingAgent t s1
    { s2 with recordingBuffer := s2.recordingBuffer ++ frame }
  else if s0.isRecording then
    if cfg.silenceDuration ≤ t - s0.lastVoiceTime then
      stopRecordingAgent c cfg t s0
    else { s0 with recordingBuffer := s0.recordingBuffer ++ frame }
  else s0

/-- Run of the processing loop over a list of (wall-clock time, frame)
pairs. -/
def agentRun (c : List ℚ → Except String Unit) (cfg : AgentConfig)
    (vad : List ℤ → Option Bool) (s : AgentState)
    (trace : List (ℚ × List ℚ)) : AgentState :=
  trace.foldl (agentStep c cfg vad) s

/-- Model of `VoiceProcessor.force_stop_recording` (voice_processor.py 235–239):
`if self.is_recording: self._stop_recording()`. -/
def forceStopRecordingAgent (c : List ℚ → Except String Unit)
    (cfg : AgentConfig) (t : ℚ) (s : AgentState) : AgentState :=
  if s.isRecording then stopRecordingAgent c cfg t s else s

/-- A consumer that always succeeds, used to instantiate runs where the
consumer's behaviour is irrelevant. -/
def consumerOk : List ℚ → Except String Unit := fun _ => Except.ok ()

/-- Sample rate of the GTK tray (voxtral_tray_gtk.py line 79). -/
def gtkSampleRate : ℕ := 16000

/-- Threshold `silence_threshold = 0.015` (voxtral_tray_gtk.py line 81). -/
def gtkSilenceThreshold : ℚ := 3 / 200

/-- Timeout `silence_duration = 1.5` (voxtral_tray_gtk.py line 82). -/
def gtkSilenceDuration : ℚ := 3 / 2

/-- State of `VoxtralTrayGTK._continuous_dictation_loop` (voxtral_tray_gtk.py
282–405).  `dispatched` records the buffers handed to
`_process_continuous_audio`; `finalizeEvents` and `lastVoiced` are
specification ghosts recording, for each finalization, the wall-clock time
and the time of the most recent voiced chunk; they influence no
transition. -/
structure GtkState where
  isSpeaking : Bool := false
  silenceStart : Option ℚ := none
  audioBuffer : List ℚ := []
  speechFrames : ℕ := 0
  silenceFrames : ℕ := 0
  dispatched : List (List ℚ) := []
  finalizeEvents : List (ℚ × ℚ) := []
  lastVoiced : ℚ := 0
deriving Repr, DecidableEq

/-- One iteration of `VoxtralTrayGTK._continuous_dictation_loop`
(voxtral_tray_gtk.py 340–385) on a read chunk.  The loop always calls the
detector with `None` for the classifier (`vad_available = False`).  On
voice: bump counters, on a fresh start reset the buffer and the silence
timer, then append.  On silence while speaking: set `silence_start` if unset,
append the chunk, and once `time.time() - silence_start >= silence_duration`
hand a non-empty buffer to `_process_continuous_audio` and reset.  Note that
a voiced chunk while already speaking leaves `silence_start` untouched. -/
def gtkStep (s : GtkState) (tc : ℚ × List ℚ) : GtkState :=
  let t := tc.1
  let chunk := tc.2
  if detectVoiceActivityGtk none gtkSampleRate gtkSilenceThreshold chunk then
    let s1 : GtkState :=
      { s with speechFrames := s.speechFrames + 1, silenceFrames := 0,
               lastVoiced := t }
    let s2 := if s1.isSpeaking then s1
              else { s1 with isSpeaking := true, audioBuffer := [],
                             silenceStart := none }
    { s2 with audioBuffer := s2.audioBuffer ++ chunk }
  else
    let s1 : GtkState := { s with silenceFrames := s.silenceFrames + 1 }
    if s1.isSpeaking then
      let start := s1.silenceStart.getD t
      let s2 : GtkState :=
        { s1 with silenceStart := some start,
                  audioBuffer := s1.audioBuffer ++ chunk }
      if gtkSilenceDuration ≤ t - start then
        let s3 := if 0 < s2.audioBuffer.length
                  then { s2 with dispatched := s2.dispatched ++ [s2.audioBuffer] }
                  else s2
        { s3 with isSpeaking := false, silenceStart := none, audioBuffer := [],
                  speechFrames := 0, silenceFrames := 0,
                  finalizeEvents := s3.finalizeEvents ++ [(t, s3.lastVoiced)] }
      else s2
    else s1

/-- Run of the GTK continuous dictation loop over (time, chunk) pairs. -/
def gtkRun (s : GtkState) (trace : List (ℚ × List ℚ)) : GtkState :=
  trace.foldl gtkStep s

/-- Sample rate of the stable tray (voxtral_tray_stable.py line 186). -/
def stableSampleRate : ℕ := 16000

/-- Threshold `silence_threshold = 0.02` (voxtral_tray_stable.py line 187). -/
def stableSilenceThreshold : ℚ := 1 / 50

/-- Timeout `silence_duration = 2.0` (voxtral_tray_stable.py line 188). -/
def stableSilenceDuration : ℚ := 2

/-- Floor `min_duration = 1.0` (voxtral_tray_stable.py line 189). -/
def stableMinDuration : ℚ := 1

/-- Cap `max_duration = 15.0` (voxtral_tray_stable.py line 190). -/
def stableMaxDuration : ℚ := 15

/-- Value of `int(self.max_duration * self.sample_rate)` = 240000 samples. -/
def stableMaxSamples : ℕ := 240000

/-- Model of `np.max(np.abs(audio_data))` (the list is non-empty at its use site;
folding `max` from 0 over absolute values agrees with the numpy maximum
there since all entries are ≥ 0). -/
def maxAbs (l : List ℚ) : ℚ := l.foldr (fun x m => max |x| m) 0

/-- Normalization in `_process_audio_stable` (voxtral_tray_stable.py
568–571): `if max_val > 0: audio_data = audio_data / max_val * 0.9`. -/
def normalizeStable (audio : List ℚ) : List ℚ :=
  let maxVal := maxAbs audio
  if 0 < maxVal then audio.map (fun x => x / maxVal * (9 / 10)) else audio

/-- Model of `StableVoxtralTray._process_audio_stable` (voxtral_tray_stable.py
523–604) up to the `whisper_model.transcribe` call: drop empty audio, drop
all-zero audio, drop audio shorter than `min_duration`, truncate audio
longer than `max_duration` to its first `max_samples` samples, drop audio
with `rms_energy < 0.001` (squared-form comparison), then normalize.
Returns the audio handed to the transcriber, or `none` when dropped.
The `NaN`/`Inf` guards cannot fire over `ℚ` and the in-flight buffer-count
guard always passes in this sequential model (the count is 0 < 3). -/
def stableTruncate (audio : List ℚ) : List ℚ :=
  if stableMaxDuration < (audio.length : ℚ) / (stableSampleRate : ℚ)
  then audio.take stableMaxSamples else audio

def processAudioStable (audio : List ℚ) : Option (List ℚ) :=
  if audio.length = 0 then none
  else if audio.all (fun x => x = 0) then none
  else if (audio.length : ℚ) / (stableSampleRate : ℚ) < stableMinDuration then
    none
  else if meanSq (stableTruncate audio) < (1 / 1000) ^ 2 then none
  else some (normalizeStable (stableTruncate audio))

/-- State of `StableVoxtralTray._continuous_loop` (voxtral_tray_stable.py
442–521).  `finalized` records the buffers handed to `_process_audio_stable`;
`dispatched` records the audio that reaches the transcriber
(i.e. the `some` results of `processAudioStable`). -/
structure StableState where
  isSpeaking : Bool := false
  silenceStart : Option ℚ := none
  audioBuffer : List ℚ := []
  finalized : List (List ℚ) := []
  dispatched : List (List ℚ) := []
deriving Repr, DecidableEq

/-- The dispatch boundary of `_process_audio_stable`: the transcription call
runs inside `try/except/finally`, so a consumer exception is caught and
logged and the loop-visible result is identical to the success case. -/
def dispatchStable (c : List ℚ → Except String Unit) (s : StableState)
    (audio : List ℚ) : StableState :=
  let s1 : StableState := { s with finalized := s.finalized ++ [audio] }
  match processAudioStable audio with
  | none => s1
  | some u =>
    match c u with
    | Except.ok _ => { s1 with dispatched := s1.dispatched ++ [u] }
    | Except.error _ => { s1 with dispatched := s1.dispatched ++ [u] }

/-- One iteration of `StableVoxtralTray._continuous_loop`
(voxtral_tray_stable.py 460–508) on a read chunk: energy-only activity
detection; on voice, start (resetting buffer and silence timer) if not
already speaking, then append; on silence while speaking, set
`silence_start` if unset, append, and once
`time.time() - silence_start >= silence_duration` hand a non-empty buffer to
`_process_audio_stable` and reset.  Empty chunks are skipped
(`if len(audio_data) == 0 ... continue`); a voiced chunk while already
speaking leaves `silence_start` untouched. -/
def stableStep (c : List ℚ → Except String Unit) (s : StableState)
    (tc : ℚ × List ℚ) : StableState :=
  let t := tc.1
  let chunk := tc.2
  if chunk.length = 0 then s
  else if energyAboveThr stableSilenceThreshold chunk then
    let s1 := if s.isSpeaking then s
              else { s with isSpeaking := true, audioBuffer := [],
                            silenceStart := none }
    { s1 with audioBuffer := s1.audioBuffer ++ chunk }
  else if s.isSpeaking then
    let start := s.silenceStart.getD t
    let s1 : StableState :=
      { s with silenceStart := some start,
               audioBuffer := s.audioBuffer ++ chunk }
    if stableSilenceDuration ≤ t - start then
      let s2 := if 0 < s1.audioBuffer.length then dispatchStable c s1 s1.audioBuffer
                else s1
      { s2 with isSpeaking := false, silenceStart := none, audioBuffer := [] }
    else s1
  else s

/-- Run of the stable continuous loop over (time, chunk) pairs. -/
def stableRun (c : List ℚ → Except String Unit) (s : StableState)
    (trace : List (ℚ × List ℚ)) : StableState :=
  trace.foldl (stableStep c) s

/-- Frame timestamp for the agent processing loop at the 30 ms frame cadence
(`frame_duration = 30` ms, voice_processor.py line 124): frame `i` is
processed at wall-clock time `3*i/100` seconds. -/
def timeA (i : ℕ) : ℚ := 3 * i / 100

/-- A uniform segment of the agent loop's input: frames `a, a+1, …, a+n-1`,
all with sample content `f`, at the 30 ms cadence. -/
def segA (a n : ℕ) (f : List ℚ) : List (ℚ × List ℚ) :=
  (List.range' a n).map (fun i => (timeA i, f))

/-- A 30 ms, 480-sample frame of constant amplitude 0.1 — energy above the
default threshold 0.01. -/
def voicedFrameA : List ℚ := List.replicate 480 (1 / 10)

/-- A 30 ms, 480-sample frame of silence. -/
def silentFrameA : List ℚ := List.replicate 480 0

/-- Input of claim C9's concrete scenario: 1.02 s (34 frames) of
above-threshold frames followed by 2.52 s (84 frames) of silent frames, at
16 kHz with the loop's 30 ms framing. -/
def agentC9Trace : List (ℚ × List ℚ) :=
  segA 0 34 voicedFrameA ++ segA 34 84 silentFrameA

/-- A VAD-classifier oracle that always answers "not speech", so that the
fused agent decision reduces to the energy heuristic. -/
def vadNo : List ℤ → Option Bool := fun _ => some false

/-- Chunk timestamp for the tray loops at the 100 ms chunk cadence
(`chunk_duration = 0.1`): chunk `i` is read at wall-clock time `i/10`. -/
def timeS (i : ℕ) : ℚ := i / 10

/-- A uniform segment of a tray loop's input: chunks `a, …, a+n-1`, all with
sample content `c`, at the 100 ms cadence. -/
def segS (a n : ℕ) (c : List ℚ) : List (ℚ × List ℚ) :=
  (List.range' a n).map (fun i => (timeS i, c))

/-- A 100 ms, 1600-sample chunk of constant amplitude 0.1 — energy above the
stable tray's threshold 0.02. -/
def voicedChunkS : List ℚ := List.replicate 1600 (1 / 10)

/-- A 100 ms, 1600-sample silent chunk. -/
def silentChunkS : List ℚ := List.replicate 1600 0

/-- Twenty seconds (200 chunks) of continuous voiced input to the stable loop. -/
def stableC2Voiced : List (ℚ × List ℚ) := segS 0 200 voicedChunkS

/-- The C2 scenario for the stable loop: 20 s of continuous voiced chunks,
then 2.1 s of silence so the silence timeout elapses and the buffered speech
is flushed. -/
def stableC2Trace : List (ℚ × List ℚ) :=
  stableC2Voiced ++ segS 200 21 silentChunkS

/-- A 1.5 s utterance of constant amplitude 1/2000: above the stable
pipeline's 1.0 s duration floor but with rms energy 0.0005 < 0.001. -/
def quietAudioC3 : List ℚ := List.replicate 24000 (1 / 2000)

/-- The GTK continuous-dictation input refuting C1: one voiced chunk at
t = 0, silence from t = 0.1 to 0.5, a voiced chunk at t = 0.6 (a pause
shorter than the 1.5 s timeout), then silence from t = 0.7 on; chunks are
100 ms apart as in the loop, each a single sample in the model. -/
def gtkC1Trace : List (ℚ × List ℚ) :=
  [(0, [1/10]), (1/10, [0]), (2/10, [0]), (3/10, [0]), (4/10, [0]),
   (5/10, [0]), (6/10, [1/10]), (7/10, [0]), (8/10, [0]), (9/10, [0]),
   (1, [0]), (11/10, [0]), (12/10, [0]), (13/10, [0]), (14/10, [0]),
   (15/10, [0]), (16/10, [0])]

/-- The utterance `u` starts with a frame that the detector `d` classifies
as speech: `u = g ++ r` for some frame `g` with `d g = true`. -/
def beginsWithDetected (d : List ℚ → Bool) (u : List ℚ) : Prop :=
  ∃ g r, u = g ++ r ∧ d g = true

/-- Wall-clock cadence hypothesis for a list of timestamps: nondecreasing,
with consecutive gaps of at most `δ` (one frame-processing interval). -/
def gapChain (δ : ℚ) (l : List ℚ) : Prop :=
  List.Chain' (fun a b => a ≤ b ∧ b ≤ a + δ) l

/-- Fresh `VoiceProcessor` state whose ghost last-processed-time is `t`. -/
def initAgentAt (t : ℚ) : AgentState := { lastTime := t }

theorem sumSq_replicate (n : ℕ) (x : ℚ) :
    sumSq (List.replicate n x) = n * (x * x) := by
  simp [sumSq, List.map_replicate, List.sum_replicate, nsmul_eq_mul]

theorem meanSq_replicate {n : ℕ} (h : n ≠ 0) (x : ℚ) :
    meanSq (List.replicate n x) = x * x := by
  have hn : (n : ℚ) ≠ 0 := Nat.cast_ne_zero.mpr h
  simp [meanSq, sumSq_replicate]
  field_simp

theorem maxAbs_replicate {n : ℕ} (h : n ≠ 0) (x : ℚ) :
    maxAbs (List.replicate n x) = |x| := by
  induction n with
  | zero => exact absurd rfl h
  | succ m ih =>
    rcases Nat.eq_zero_or_pos m with hm | hm
    · subst hm; simp [maxAbs, abs_nonneg]
    · have := ih hm.ne'
      simp only [List.replicate_succ, maxAbs, List.foldr_cons] at this ⊢
      rw [this, max_self]

theorem dequeExtendMax_length_le (cap : ℕ) (buf xs : List ℚ) :
    (dequeExtendMax cap buf xs).length ≤ cap := by
  simp only [dequeExtendMax, List.length_drop]
  omega

theorem dequeExtendMax_comp (cap : ℕ) (buf xs ys : List ℚ) :
    dequeExtendMax cap (dequeExtendMax cap buf xs) ys
      = dequeExtendMax cap buf (xs ++ ys) := by
  simp only [dequeExtendMax, ← List.append_assoc]
  have hd : (buf ++ xs).length - cap ≤ (buf ++ xs).length := Nat.sub_le _ _
  rw [← List.drop_append_of_le_length hd, List.drop_drop]
  congr 1
  simp only [List.length_drop, List.length_append]
  omega

theorem foldl_dequeExtendMax (cap : ℕ) (writes : List (List ℚ)) :
    ∀ buf : List ℚ, buf.length ≤ cap →
      writes.foldl (dequeExtendMax cap) buf
        = dequeExtendMax cap buf writes.flatten := by
  induction writes with
  | nil =>
    intro buf hb
    simp [dequeExtendMax, Nat.sub_eq_zero_of_le hb]
  | cons x xs ih =>
    intro buf hb
    simp only [List.foldl_cons, List.flatten_cons]
    rw [ih _ (dequeExtendMax_length_le cap buf x), dequeExtendMax_comp]

/-- C5.  The capture-to-segmentation buffer is a `deque` with
`maxlen = sample_rate * 30`; appending via the audio callback discards the
oldest samples first, so after any sequence of writes the buffer holds
exactly the most recent samples up to capacity, in arrival order — and the
writer is a total function of the buffer (it never waits on the reader). -/
theorem audio_buffer_keeps_most_recent (sr : ℕ) (writes : List (List ℚ)) :
    writes.foldl (dequeExtendMax (audioBufferMaxlen sr)) []
        = writes.flatten.drop (writes.flatten.length - audioBufferMaxlen sr)
      ∧ (writes.foldl (dequeExtendMax (audioBufferMaxlen sr)) []).length
          ≤ audioBufferMaxlen sr := by
  have h := foldl_dequeExtendMax (audioBufferMaxlen sr) writes [] (by simp)
  refine ⟨?_, ?_⟩
  · rw [h]; simp [dequeExtendMax]
  · rw [h]; exact dequeExtendMax_length_le _ _ _

theorem wrap16_eq_self {z : ℤ} (h1 : -32768 ≤ z) (h2 : z < 32768) :
    wrap16 z = z := by
  unfold wrap16
  rw [Int.emod_eq_of_lt (by omega) (by omega)]
  omega

theorem truncQ_le {q : ℚ} {m : ℤ} (h : q ≤ (m : ℚ)) : truncQ q ≤ m := by
  unfold truncQ
  split
  · have := Int.floor_le_floor h
    simpa using this
  · have := Int.ceil_le_ceil h
    simpa using this

theorem le_truncQ {q : ℚ} {m : ℤ} (h : (m : ℚ) ≤ q) : m ≤ truncQ q := by
  unfold truncQ
  split
  · have := Int.floor_le_floor h
    simpa using this
  · have := Int.ceil_le_ceil h
    simpa using this

theorem clipQ_mem (x : ℚ) : -1 ≤ clipQ x ∧ clipQ x ≤ 1 := by
  unfold clipQ
  constructor
  · exact le_max_left _ _
  · exact max_le (by norm_num) (min_le_left _ _)

/-- C6 (amended).  The GTK detector's conversion clamps each sample to
[-1, 1] before scaling by 32767 with truncation toward zero, so the cast
never wraps (the modular reduction is the identity and the result lies in
the int16 range); on in-range samples the agent detector's conversion
agrees with it — but the agent detector itself applies no clamping (see the
counterexample). -/
theorem pcm_conversion_clamped :
    (∀ x : ℚ, pcmSampleGtk x = truncQ (clipQ x * 32767)
        ∧ -32768 ≤ pcmSampleGtk x ∧ pcmSampleGtk x ≤ 32767)
    ∧ (∀ x : ℚ, -1 ≤ x → x ≤ 1 → pcmSampleAgent x = pcmSampleGtk x) := by
  constructor
  · intro x
    obtain ⟨hl, hr⟩ := clipQ_mem x
    have h1 : (-32767 : ℤ) ≤ truncQ (clipQ x * 32767) := by
      apply le_truncQ; push_cast; nlinarith
    have h2 : truncQ (clipQ x * 32767) ≤ 32767 := by
      apply truncQ_le; push_cast; nlinarith
    have hw : wrap16 (truncQ (clipQ x * 32767)) = truncQ (clipQ x * 32767) :=
      wrap16_eq_self (by omega) (by omega)
    exact ⟨hw, by rw [pcmSampleGtk, hw]; omega, by rw [pcmSampleGtk, hw]; omega⟩
  · intro x hl hr
    have hc : clipQ x = x := by
      unfold clipQ
      rw [min_eq_right hr, max_eq_right hl]
    rw [pcmSampleAgent, pcmSampleGtk, hc]

/-- C6 witness: on the in-range sample 1/2 the two conversions agree. -/
theorem pcm_conversion_clamped_witness :
    pcmSampleAgent (1/2) = pcmSampleGtk (1/2) :=
  pcm_conversion_clamped.2 (1/2) (by norm_num) (by norm_num)

/-- C6 counterexample: the agent detector's conversion (voice_processor.py
line 168) does *not* clamp before scaling: the over-driven sample 1.5 is
scaled to 49150.5, truncated to 49150 and wrapped by the int16 cast to
-16386 — a negative value for a positive input — whereas the clamp-first
conversion of the GTK detector yields 32767. -/
theorem C6_counterexample :
    pcmSampleAgent (3/2) = -16386 ∧ pcmSampleGtk (3/2) = 32767
      ∧ pcmSampleAgent (3/2) < 0 := by
  have h1 : truncQ ((3:ℚ)/2 * 32767) = 49150 := by
    unfold truncQ
    rw [if_pos (by norm_num)]
    norm_num
  have h2 : truncQ (clipQ (3/2) * 32767) = 32767 := by
    have hc : clipQ (3/2) = 1 := by unfold clipQ; norm_num
    rw [hc]
    unfold truncQ
    rw [if_pos (by norm_num)]
    norm_num
  refine ⟨?_, ?_, ?_⟩
  · rw [pcmSampleAgent, h1]; decide
  · rw [pcmSampleGtk, h2]; decide
  · rw [pcmSampleAgent, h1]; decide

/-- C7.  Fusion policy: in the capture pipeline's detector the per-frame
decision is the logical OR of the classifier decision and the energy
decision, so either alone yields "speech"; in the continuous-dictation
(GTK) detector, whenever the classifier is consulted and answers, the
decision is the logical AND of the two, so both must agree. -/
theorem detection_fusion_policy :
    (∀ (vad : List ℤ → Option Bool) (thr : ℚ) (frame : List ℚ) (b : Bool),
        vad (frame.map pcmSampleAgent) = some b →
        detectVoiceActivityAgent vad thr frame
          = (b || energyAboveThr thr frame))
    ∧ (∀ (vad : List ℤ → Option Bool) (sr : ℕ) (thr : ℚ) (frame : List ℚ)
          (v : Bool), frame.length ≠ 0 →
        vad ((padTrunc (expectedSamplesGtk sr) frame).map pcmSampleGtk)
          = some v →
        detectVoiceActivityGtk (some vad) sr thr frame
          = (v && energyAboveThr thr frame)) := by
  constructor
  · intro vad thr frame b hb
    unfold detectVoiceActivityAgent
    rw [hb]
  · intro vad sr thr frame v hne hv
    unfold detectVoiceActivityGtk
    rw [if_neg hne]
    simp only []
    rw [hv]

/-- C7 witness: with a classifier that answers `true` on everything, the
agent detector reports speech on a silent frame (OR fusion) while the GTK
detector does not (AND fusion with a below-threshold energy decision). -/
theorem detection_fusion_policy_witness :
    detectVoiceActivityAgent (fun _ => some true) (1/100) [0]
        = (true || energyAboveThr (1/100) [0])
      ∧ detectVoiceActivityGtk (some (fun _ => some true)) 16000 (3/200) [0]
        = (true && energyAboveThr (3/200) [0]) :=
  ⟨detection_fusion_policy.1 (fun _ => some true) (1/100) [0] true rfl,
   detection_fusion_policy.2 (fun _ => some true) 16000 (3/200) [0] true
     (by norm_num) rfl⟩

/-- C8.  A force-stop while RECORDING finalizes immediately: the segmenter
returns to IDLE with an empty accumulator, and the utterance is handed to
the transcription callback if and only if it meets the 0.5 s minimum
duration floor; a force-stop while IDLE changes nothing and dispatches
nothing. -/
theorem force_stop_semantics (c : List ℚ → Except String Unit)
    (cfg : AgentConfig) (t : ℚ) (s : AgentState) (hsr : 0 < cfg.sampleRate) :
    (s.isRecording = false → forceStopRecordingAgent c cfg t s = s)
    ∧ (s.isRecording = true →
        (forceStopRecordingAgent c cfg t s).isRecording = false
        ∧ (forceStopRecordingAgent c cfg t s).recordingBuffer = []
        ∧ ((forceStopRecordingAgent c cfg t s).dispatched
              = s.dispatched ++ [s.recordingBuffer]
            ↔ 1/2 ≤ (s.recordingBuffer.length : ℚ) / (cfg.sampleRate : ℚ))
        ∧ (¬ 1/2 ≤ (s.recordingBuffer.length : ℚ) / (cfg.sampleRate : ℚ) →
            (forceStopRecordingAgent c cfg t s).dispatched = s.dispatched)) := by
  constructor
  · intro hrec
    simp [forceStopRecordingAgent, hrec]
  · intro hrec
    by_cases hdur :
        (s.recordingBuffer.length : ℚ) / (cfg.sampleRate : ℚ) < 1/2
    · have hnot : ¬ 1/2 ≤ (s.recordingBuffer.length : ℚ) / (cfg.sampleRate : ℚ) :=
        not_le.mpr hdur
      by_cases hlen : 0 < s.recordingBuffer.length
      · simp only [forceStopRecordingAgent, stopRecordingAgent,
          dispatchGateAgent, processAudioAgent, hrec, if_true, if_pos hlen,
          if_pos hdur]
        refine ⟨trivial, trivial, ?_, fun _ => trivial⟩
        simp only [iff_false_intro hnot, iff_false]
        intro h
        have := congrArg List.length h
        simp at this
      · simp only [forceStopRecordingAgent, stopRecordingAgent, hrec, if_true,
          if_neg hlen]
        refine ⟨trivial, trivial, ?_, fun _ => trivial⟩
        simp only [iff_false_intro hnot, iff_false]
        intro h
        have := congrArg List.length h
        simp at this
    · have hle := le_of_not_lt hdur
      have hlen : 0 < s.recordingBuffer.length := by
        by_contra hl
        have h0 : s.recordingBuffer.length = 0 := by omega
        rw [h0] at hdur
        norm_num at hdur
      cases hc : c s.recordingBuffer with
      | ok u =>
        simp only [forceStopRecordingAgent, stopRecordingAgent,
          dispatchGateAgent, processAudioAgent, hrec, if_true, if_pos hlen,
          if_neg hdur, hc]
        exact ⟨trivial, trivial, by simp only [one_div] at hle ⊢; simp [hle],
          fun h => absurd hle h⟩
      | error e =>
        simp only [forceStopRecordingAgent, stopRecordingAgent,
          dispatchGateAgent, processAudioAgent, hrec, if_true, if_pos hlen,
          if_neg hdur, hc]
        exact ⟨trivial, trivial, by simp only [one_div] at hle ⊢; simp [hle],
          fun h => absurd hle h⟩

/-- C8 witness: a force-stop from IDLE is a no-op, and a force-stop from a
RECORDING state holding a 1-second utterance (16000 samples at 16 kHz)
returns to IDLE and dispatches it. -/
theorem force_stop_semantics_witness :
    (forceStopRecordingAgent consumerOk {} 5 {} = {})
    ∧ ((forceStopRecordingAgent consumerOk {} 5
          { isRecording := true,
            recordingBuffer := List.replicate 16000 (1/10) }).dispatched
        = [] ++ [List.replicate 16000 (1/10)]) := by
  constructor
  · exact (force_stop_semantics consumerOk {} 5 {} (by norm_num)).1 rfl
  · refine ((force_stop_semantics consumerOk {} 5
      { isRecording := true,
        recordingBuffer := List.replicate 16000 (1/10) }
      (by norm_num)).2 rfl).2.2.1.mpr ?_
    show (1:ℚ)/2 ≤ ((List.replicate 16000 ((1:ℚ)/10)).length : ℚ) / ((16000 : ℕ) : ℚ)
    norm_num

theorem agentStep_voiced_idle (c : List ℚ → Except String Unit)
    (cfg : AgentConfig) (vad : List ℤ → Option Bool) (s : AgentState)
    (t : ℚ) (f : List ℚ)
    (hv : detectVoiceActivityAgent vad cfg.silenceThreshold f = true)
    (hrec : s.isRecording = false) :
    agentStep c cfg vad s (t, f)
      = { s with lastTime := t, lastVoiceTime := t, isRecording := true,
                 recordingStartTime := t, recordingBuffer := f } := by
  simp [agentStep, startRecordingAgent, hv, hrec]

theorem agentStep_voiced_rec (c : List ℚ → Except String Unit)
    (cfg : AgentConfig) (vad : List ℤ → Option Bool) (s : AgentState)
    (t : ℚ) (f : List ℚ)
    (hv : detectVoiceActivityAgent vad cfg.silenceThreshold f = true)
    (hrec : s.isRecording = true) :
    agentStep c cfg vad s (t, f)
      = { s with lastTime := t, lastVoiceTime := t,
                 recordingBuffer := s.recordingBuffer ++ f } := by
  simp [agentStep, startRecordingAgent, hv, hrec]

theorem agentStep_silent_rec (c : List ℚ → Except String Unit)
    (cfg : AgentConfig) (vad : List ℤ → Option Bool) (s : AgentState)
    (t : ℚ) (f : List ℚ)
    (hv : detectVoiceActivityAgent vad cfg.silenceThreshold f = false)
    (hrec : s.isRecording = true)
    (hlt : t - s.lastVoiceTime < cfg.silenceDuration) :
    agentStep c cfg vad s (t, f)
      = { s with lastTime := t,
                 recordingBuffer := s.recordingBuffer ++ f } := by
  simp [agentStep, hv, hrec, not_le.mpr hlt]

theorem agentStep_silent_final (c : List ℚ → Except String Unit)
    (cfg : AgentConfig) (vad : List ℤ → Option Bool) (s : AgentState)
    (t : ℚ) (f : List ℚ)
    (hv : detectVoiceActivityAgent vad cfg.silenceThreshold f = false)
    (hrec : s.isRecording = true)
    (hge : cfg.silenceDuration ≤ t - s.lastVoiceTime) :
    agentStep c cfg vad s (t, f)
      = stopRecordingAgent c cfg t { s with lastTime := t } := by
  simp [agentStep, hv, hrec, hge]

theorem agentStep_silent_idle (c : List ℚ → Except String Unit)
    (cfg : AgentConfig) (vad : List ℤ → Option Bool) (s : AgentState)
    (t : ℚ) (f : List ℚ)
    (hv : detectVoiceActivityAgent vad cfg.silenceThreshold f = false)
    (hrec : s.isRecording = false) :
    agentStep c cfg vad s (t, f) = { s with lastTime := t } := by
  simp [agentStep, hv, hrec]

theorem timeA_mono {i j : ℕ} (h : i ≤ j) : timeA i ≤ timeA j := by
  unfold timeA
  have : (i : ℚ) ≤ (j : ℚ) := Nat.cast_le.mpr h
  linarith

theorem segA_cons (a n : ℕ) (f : List ℚ) :
    segA a (n + 1) f = (timeA a, f) :: segA (a + 1) n f := by
  simp [segA, List.range'_succ]

theorem agentRun_cons (c : List ℚ → Except String Unit) (cfg : AgentConfig)
    (vad : List ℤ → Option Bool) (s : AgentState) (p : ℚ × List ℚ)
    (trace : List (ℚ × List ℚ)) :
    agentRun c cfg vad s (p :: trace)
      = agentRun c cfg vad (agentStep c cfg vad s p) trace := rfl

theorem agentRun_append (c : List ℚ → Except String Unit) (cfg : AgentConfig)
    (vad : List ℤ → Option Bool) (s : AgentState)
    (t1 t2 : List (ℚ × List ℚ)) :
    agentRun c cfg vad s (t1 ++ t2)
      = agentRun c cfg vad (agentRun c cfg vad s t1) t2 :=
  List.foldl_append _ _ _ _

theorem agentRun_voiced_segA (c : List ℚ → Except String Unit)
    (cfg : AgentConfig) (vad : List ℤ → Option Bool) (f : List ℚ)
    (hv : detectVoiceActivityAgent vad cfg.silenceThreshold f = true) :
    ∀ (n a : ℕ) (s : AgentState), s.isRecording = true → n ≠ 0 →
      agentRun c cfg vad s (segA a n f)
        = { s with lastTime := timeA (a + n - 1),
                   lastVoiceTime := timeA (a + n - 1),
                   recordingBuffer :=
                     s.recordingBuffer ++ (List.replicate n f).flatten } := by
  intro n
  induction n with
  | zero => intro a s _ h0; exact absurd rfl h0
  | succ m ih =>
    intro a s hrec _
    rw [segA_cons, agentRun_cons,
      agentStep_voiced_rec c cfg vad s (timeA a) f hv hrec]
    rcases Nat.eq_zero_or_pos m with hm | hm
    · subst hm
      simp [segA, agentRun]
    · rw [ih (a + 1)
        { s with lastTime := timeA a, lastVoiceTime := timeA a,
                 recordingBuffer := s.recordingBuffer ++ f } hrec hm.ne']
      have harith : a + 1 + m - 1 = a + (m + 1) - 1 := by omega
      simp only [harith, List.replicate_succ, List.flatten_cons,
        List.append_assoc]

theorem agentRun_silent_segA (c : List ℚ → Except String Unit)
    (cfg : AgentConfig) (vad : List ℤ → Option Bool) (f : List ℚ)
    (hv : detectVoiceActivityAgent vad cfg.silenceThreshold f = false) :
    ∀ (n a : ℕ) (s : AgentState), s.isRecording = true → n ≠ 0 →
      timeA (a + n - 1) - s.lastVoiceTime < cfg.silenceDuration →
      agentRun c cfg vad s (segA a n f)
        = { s with lastTime := timeA (a + n - 1),
                   recordingBuffer :=
                     s.recordingBuffer ++ (List.replicate n f).flatten } := by
  intro n
  induction n with
  | zero => intro a s _ h0; exact absurd rfl h0
  | succ m ih =>
    intro a s hrec _ hlt
    have hstep : timeA a - s.lastVoiceTime < cfg.silenceDuration := by
      have := timeA_mono (show a ≤ a + (m + 1) - 1 by omega)
      linarith
    rw [segA_cons, agentRun_cons,
      agentStep_silent_rec c cfg vad s (timeA a) f hv hrec hstep]
    rcases Nat.eq_zero_or_pos m with hm | hm
    · subst hm
      simp [segA, agentRun]
    · rw [ih (a + 1)
        { s with lastTime := timeA a,
                 recordingBuffer := s.recordingBuffer ++ f } hrec hm.ne'
        (show timeA (a + 1 + m - 1) - s.lastVoiceTime
            < cfg.silenceDuration by
          have harith0 : a + 1 + m - 1 = a + (m + 1) - 1 := by omega
          rw [harith0]; exact hlt)]
      have harith : a + 1 + m - 1 = a + (m + 1) - 1 := by omega
      simp only [harith, List.replicate_succ, List.flatten_cons,
        List.append_assoc]

theorem agentRun_silent_idle_segA (c : List ℚ → Except String Unit)
    (cfg : AgentConfig) (vad : List ℤ → Option Bool) (f : List ℚ)
    (hv : detectVoiceActivityAgent vad cfg.silenceThreshold f = false) :
    ∀ (n a : ℕ) (s : AgentState), s.isRecording = false → n ≠ 0 →
      agentRun c cfg vad s (segA a n f)
        = { s with lastTime := timeA (a + n - 1) } := by
  intro n
  induction n with
  | zero => intro a s _ h0; exact absurd rfl h0
  | succ m ih =>
    intro a s hrec _
    rw [segA_cons, agentRun_cons,
      agentStep_silent_idle c cfg vad s (timeA a) f hv hrec]
    rcases Nat.eq_zero_or_pos m with hm | hm
    · subst hm
      simp [segA, agentRun]
    · rw [ih (a + 1) { s with lastTime := timeA a } hrec hm.ne']
      have harith : a + 1 + m - 1 = a + (m + 1) - 1 := by omega
      rw [harith]

theorem segA_append (a n m : ℕ) (f : List ℚ) :
    segA a (m + n) f = segA a n f ++ segA (a + n) m f := by
  unfold segA
  rw [← List.range'_append a n m 1, List.map_append]
  norm_num

theorem detect_agent_voicedA :
    detectVoiceActivityAgent vadNo ({} : AgentConfig).silenceThreshold
      voicedFrameA = true := by
  have hm : meanSq voicedFrameA = (1/10) * (1/10) := by
    rw [voicedFrameA]; exact meanSq_replicate (by norm_num) _
  simp [detectVoiceActivityAgent, vadNo, energyAboveThr, hm]
  norm_num

theorem detect_agent_silentA :
    detectVoiceActivityAgent vadNo ({} : AgentConfig).silenceThreshold
      silentFrameA = false := by
  have hm : meanSq silentFrameA = 0 * 0 := by
    rw [silentFrameA]; exact meanSq_replicate (by norm_num) _
  simp [detectVoiceActivityAgent, vadNo, energyAboveThr, hm]

theorem dispatchGateAgent_dispatches (c : List ℚ → Except String Unit)
    (cfg : AgentConfig) (s : AgentState) (audio : List ℚ)
    (hflr : ¬ ((audio.length : ℚ) / (cfg.sampleRate : ℚ) < 1/2)) :
    dispatchGateAgent c cfg s audio
      = { s with dispatched := s.dispatched ++ [audio] } := by
  unfold dispatchGateAgent processAudioAgent
  rw [if_neg hflr]
  cases hc : c audio <;> simp [hc]

theorem dispatchGateAgent_drops (c : List ℚ → Except String Unit)
    (cfg : AgentConfig) (s : AgentState) (audio : List ℚ)
    (hflr : (audio.length : ℚ) / (cfg.sampleRate : ℚ) < 1/2) :
    dispatchGateAgent c cfg s audio = s := by
  unfold dispatchGateAgent processAudioAgent
  rw [if_pos hflr]

theorem stopRecordingAgent_dispatch (c : List ℚ → Except String Unit)
    (cfg : AgentConfig) (t : ℚ) (s : AgentState)
    (hrec : s.isRecording = true)
    (hflr : ¬ ((s.recordingBuffer.length : ℚ) / (cfg.sampleRate : ℚ) < 1/2))
    (hpos : 0 < s.recordingBuffer.length) :
    stopRecordingAgent c cfg t s
      = { s with isRecording := false, recordingBuffer := [],
                 dispatched := s.dispatched ++ [s.recordingBuffer],
                 finalizeEvents :=
                   s.finalizeEvents ++ [(t, s.lastVoiceTime)] } := by
  unfold stopRecordingAgent
  rw [if_pos hrec]
  simp only [hpos, if_true, dispatchGateAgent_dispatches c cfg _ _ hflr]

theorem agentC9_run :
    agentRun consumerOk {} vadNo {} agentC9Trace
      = { isRecording := false, lastVoiceTime := timeA 33,
          recordingStartTime := timeA 0,
          recordingBuffer := [],
          dispatched := [(voicedFrameA ++ (List.replicate 33 voicedFrameA).flatten)
              ++ (List.replicate 66 silentFrameA).flatten],
          finalizeEvents := [(timeA 100, timeA 33)],
          lastTime := timeA 117 } := by
  have h34 : segA 0 34 voicedFrameA
      = (timeA 0, voicedFrameA) :: segA 1 33 voicedFrameA := by
    have h := segA_cons 0 33 voicedFrameA
    norm_num at h
    exact h
  have h84 : segA 34 84 silentFrameA
      = segA 34 66 silentFrameA ++ segA 100 18 silentFrameA := by
    have h := segA_append 34 66 18 silentFrameA
    norm_num at h
    exact h
  have h18 : segA 100 18 silentFrameA
      = (timeA 100, silentFrameA) :: segA 101 17 silentFrameA := by
    have h := segA_cons 100 17 silentFrameA
    norm_num at h
    exact h
  have hlen : ((voicedFrameA ++ (List.replicate 33 voicedFrameA).flatten)
      ++ (List.replicate 66 silentFrameA).flatten).length = 48000 := by
    rw [voicedFrameA, silentFrameA, List.flatten_replicate_replicate,
      List.flatten_replicate_replicate]
    simp only [List.length_append, List.length_replicate]
  have e1 : agentStep consumerOk {} vadNo {} (timeA 0, voicedFrameA)
      = { isRecording := true, lastVoiceTime := timeA 0,
          recordingStartTime := timeA 0, recordingBuffer := voicedFrameA,
          dispatched := [], finalizeEvents := [], lastTime := timeA 0 } := by
    rw [agentStep_voiced_idle _ _ _ _ _ _ detect_agent_voicedA rfl]
  have e2 : agentRun consumerOk {} vadNo
      { isRecording := true, lastVoiceTime := timeA 0,
        recordingStartTime := timeA 0, recordingBuffer := voicedFrameA,
        dispatched := [], finalizeEvents := [], lastTime := timeA 0 }
      (segA 1 33 voicedFrameA)
      = { isRecording := true, lastVoiceTime := timeA 33,
          recordingStartTime := timeA 0,
          recordingBuffer := voicedFrameA
            ++ (List.replicate 33 voicedFrameA).flatten,
          dispatched := [], finalizeEvents := [], lastTime := timeA 33 } := by
    rw [agentRun_voiced_segA _ _ _ _ detect_agent_voicedA 33 1 _ rfl
      (by norm_num)]
  have e3 : agentRun consumerOk {} vadNo
      { isRecording := true, lastVoiceTime := timeA 33,
        recordingStartTime := timeA 0,
        recordingBuffer := voicedFrameA
          ++ (List.replicate 33 voicedFrameA).flatten,
        dispatched := [], finalizeEvents := [], lastTime := timeA 33 }
      (segA 34 66 silentFrameA)
      = { isRecording := true, lastVoiceTime := timeA 33,
          recordingStartTime := timeA 0,
          recordingBuffer := (voicedFrameA
            ++ (List.replicate 33 voicedFrameA).flatten)
            ++ (List.replicate 66 silentFrameA).flatten,
          dispatched := [], finalizeEvents := [], lastTime := timeA 99 } := by
    rw [agentRun_silent_segA _ _ _ _ detect_agent_silentA 66 34 _ rfl
      (by norm_num) (by norm_num [timeA])]
  have e4 : agentStep consumerOk {} vadNo
      { isRecording := true, lastVoiceTime := timeA 33,
        recordingStartTime := timeA 0,
        recordingBuffer := (voicedFrameA
          ++ (List.replicate 33 voicedFrameA).flatten)
          ++ (List.replicate 66 silentFrameA).flatten,
        dispatched := [], finalizeEvents := [], lastTime := timeA 99 }
      (timeA 100, silentFrameA)
      = { isRecording := false, lastVoiceTime := timeA 33,
          recordingStartTime := timeA 0,
          recordingBuffer := [],
          dispatched := [(voicedFrameA
            ++ (List.replicate 33 voicedFrameA).flatten)
            ++ (List.replicate 66 silentFrameA).flatten],
          finalizeEvents := [(timeA 100, timeA 33)],
          lastTime := timeA 100 } := by
    rw [agentStep_silent_final _ _ _ _ _ _ detect_agent_silentA rfl
      (by norm_num [timeA])]
    rw [stopRecordingAgent_dispatch consumerOk {} (timeA 100)
      { isRecording := true, lastVoiceTime := timeA 33,
        recordingStartTime := timeA 0,
        recordingBuffer := (voicedFrameA
          ++ (List.replicate 33 voicedFrameA).flatten)
          ++ (List.replicate 66 silentFrameA).flatten,
        dispatched := [], finalizeEvents := [], lastTime := timeA 100 }
      rfl (by rw [hlen]; norm_num) (by rw [hlen]; norm_num)]
    simp
  have e5 : agentRun consumerOk {} vadNo
      { isRecording := false, lastVoiceTime := timeA 33,
        recordingStartTime := timeA 0,
        recordingBuffer := [],
        dispatched := [(voicedFrameA
          ++ (List.replicate 33 voicedFrameA).flatten)
          ++ (List.replicate 66 silentFrameA).flatten],
        finalizeEvents := [(timeA 100, timeA 33)],
        lastTime := timeA 100 }
      (segA 101 17 silentFrameA)
      = { isRecording := false, lastVoiceTime := timeA 33,
          recordingStartTime := timeA 0,
          recordingBuffer := [],
          dispatched := [(voicedFrameA
            ++ (List.replicate 33 voicedFrameA).flatten)
            ++ (List.replicate 66 silentFrameA).flatten],
          finalizeEvents := [(timeA 100, timeA 33)],
          lastTime := timeA 117 } := by
    rw [agentRun_silent_idle_segA _ _ _ _ detect_agent_silentA 17 101 _ rfl
      (by norm_num)]
  show agentRun consumerOk {} vadNo {}
      (segA 0 34 voicedFrameA ++ segA 34 84 silentFrameA) = _
  rw [h34, h84, h18, agentRun_append, agentRun_cons, e1, e2,
    agentRun_append, e3, agentRun_cons, e4, e5]

theorem agentC9_utterance_length :
    ((voicedFrameA ++ (List.replicate 33 voicedFrameA).flatten)
      ++ (List.replicate 66 silentFrameA).flatten).length = 48000 := by
  rw [voicedFrameA, silentFrameA, List.flatten_replicate_replicate,
    List.flatten_replicate_replicate]
  simp only [List.length_append, List.length_replicate]

/-- C9 counterexample: in the concrete 16 kHz scenario (default silence
timeout 2.0 s, hard-coded minimum duration 0.5 s; 1.02 s of
above-threshold frames followed by 2.52 s of below-threshold frames at the
loop's 30 ms framing) the capture pipeline does dispatch exactly one
utterance, but its duration is 3.0 s — the voiced second *plus* the 2.0 s
of silence frames appended while waiting out the timeout — not ~1.0 s
(± one 30 ms frame) as claimed. -/
theorem C9_counterexample :
    ¬ ∃ u, (agentRun consumerOk {} vadNo {} agentC9Trace).dispatched = [u]
        ∧ |(u.length : ℚ) / 16000 - 1| ≤ 3/100 := by
  rintro ⟨u, hu, habs⟩
  rw [agentC9_run] at hu
  simp only [List.cons.injEq, and_true] at hu
  rw [← hu, agentC9_utterance_length] at habs
  norm_num at habs

/-- C9 (amended).  In the concrete scenario (16 kHz, silence timeout 2.0 s,
minimum duration 0.5 s, 1.0 s of above-threshold frames then 2.5 s of
below-threshold frames) the capture pipeline dispatches exactly one
utterance, whose duration is approximately 3.0 s (within one 30 ms frame):
the 1.0 s of voiced audio plus the 2.0 s of trailing silence frames that
the loop appends to the recording buffer until the timeout elapses. -/
theorem C9_amended_scenario :
    ∃ u, (agentRun consumerOk {} vadNo {} agentC9Trace).dispatched = [u]
      ∧ |(u.length : ℚ) / 16000 - 3| ≤ 3/100 := by
  refine ⟨_, by rw [agentC9_run], ?_⟩
  rw [agentC9_utterance_length]
  norm_num

theorem detect_gtk_voiced1 :
    detectVoiceActivityGtk none gtkSampleRate gtkSilenceThreshold [1/10]
      = true := by
  simp [detectVoiceActivityGtk, energyAboveThr, meanSq, sumSq,
    gtkSilenceThreshold]
  norm_num

theorem detect_gtk_silent1 :
    detectVoiceActivityGtk none gtkSampleRate gtkSilenceThreshold [0]
      = false := by
  simp [detectVoiceActivityGtk, energyAboveThr, meanSq, sumSq,
    gtkSilenceThreshold]
  norm_num

/-- C1 counterexample: in the GTK continuous-dictation loop, feed one voiced
chunk at t = 0, silence from t = 0.1 to 0.5, a voiced chunk at t = 0.6 (a
pause of 0.5 s, well below the 1.5 s timeout), then silence.  The loop
resets its silence clock only when a *new* utterance starts, not when voice
resumes mid-utterance, so it finalizes at t = 1.6 — when 1.5 s have elapsed
since the *first* silent chunk at t = 0.1 — although the most recent voiced
chunk was at t = 0.6, i.e. after only 1.0 s of silence, half a second short
of the timeout (far more than the one-chunk tolerance of 0.1 s).  The
voiced chunk at t = 0.6 did not restart the silence measurement. -/
theorem C1_counterexample :
    (gtkRun {} gtkC1Trace).finalizeEvents = [(8/5, 3/5)]
      ∧ (8/5 : ℚ) - 3/5 < gtkSilenceDuration - 1/10 := by
  constructor
  · norm_num [gtkRun, gtkC1Trace, List.foldl, gtkStep, detect_gtk_voiced1,
      detect_gtk_silent1, gtkSilenceDuration]
  · norm_num [gtkSilenceDuration]

theorem dispatchGateAgent_fields (c : List ℚ → Except String Unit)
    (cfg : AgentConfig) (s : AgentState) (a : List ℚ) :
    (dispatchGateAgent c cfg s a).isRecording = s.isRecording
    ∧ (dispatchGateAgent c cfg s a).finalizeEvents = s.finalizeEvents
    ∧ (dispatchGateAgent c cfg s a).lastTime = s.lastTime
    ∧ (dispatchGateAgent c cfg s a).lastVoiceTime = s.lastVoiceTime := by
  unfold dispatchGateAgent
  cases hp : processAudioAgent cfg a with
  | none => exact ⟨rfl, rfl, rfl, rfl⟩
  | some u =>
    dsimp only
    cases hc : c u with
    | ok v => exact ⟨rfl, rfl, rfl, rfl⟩
    | error v => exact ⟨rfl, rfl, rfl, rfl⟩

theorem stopRecordingAgent_fields (c : List ℚ → Except String Unit)
    (cfg : AgentConfig) (t : ℚ) (s : AgentState)
    (hrec : s.isRecording = true) :
    (stopRecordingAgent c cfg t s).isRecording = false
    ∧ (stopRecordingAgent c cfg t s).finalizeEvents
        = s.finalizeEvents ++ [(t, s.lastVoiceTime)]
    ∧ (stopRecordingAgent c cfg t s).lastTime = s.lastTime := by
  unfold stopRecordingAgent
  rw [if_pos hrec]
  by_cases hlen : 0 < s.recordingBuffer.length
  · simp only [hlen, if_true]
    obtain ⟨h1, h2, h3, _⟩ := dispatchGateAgent_fields c cfg
      { s with isRecording := false,
               finalizeEvents := s.finalizeEvents ++ [(t, s.lastVoiceTime)] }
      s.recordingBuffer
    exact ⟨h1, h2, h3⟩
  · simp [hlen]

/-- Finalize-timing invariant of the capture pipeline's processing loop:
along any frame trace whose wall-clock timestamps are nondecreasing with
gaps of at most `δ`, every finalization event recorded by the run — beyond
those already in the start state — happens at a time `e.1` whose distance to
the last refresh `e.2` of `last_voice_time` lies in
`[silence_duration, silence_duration + δ)`. -/
theorem agentRun_finalize_bound (c : List ℚ → Except String Unit)
    (cfg : AgentConfig) (vad : List ℤ → Option Bool)
    (hdur : 0 < cfg.silenceDuration) (δ : ℚ) :
    ∀ (trace : List (ℚ × List ℚ)) (s : AgentState),
      (s.isRecording = true → s.lastTime - s.lastVoiceTime < cfg.silenceDuration) →
      gapChain δ (s.lastTime :: trace.map Prod.fst) →
      ∀ e ∈ (agentRun c cfg vad s trace).finalizeEvents,
        e ∈ s.finalizeEvents
        ∨ (cfg.silenceDuration ≤ e.1 - e.2
            ∧ e.1 - e.2 < cfg.silenceDuration + δ) := by
  intro trace
  induction trace with
  | nil =>
    intro s _ _ e he
    exact Or.inl he
  | cons p rest ih =>
    obtain ⟨t, f⟩ := p
    intro s hinv hchain e he
    have hrel : s.lastTime ≤ t ∧ t ≤ s.lastTime + δ :=
      (List.chain'_cons.mp hchain).1
    have hchain' : gapChain δ (t :: rest.map Prod.fst) :=
      (List.chain'_cons.mp hchain).2
    rw [agentRun_cons] at he
    by_cases hv : detectVoiceActivityAgent vad cfg.silenceThreshold f = true
    · by_cases hrec : s.isRecording = true
      · rw [agentStep_voiced_rec c cfg vad s t f hv hrec] at he
        have := ih { s with
            lastTime := t, lastVoiceTime := t,
            recordingBuffer := s.recordingBuffer ++ f }
          (fun _ => by simpa using hdur) hchain' e he
        simpa using this
      · rw [agentStep_voiced_idle c cfg vad s t f hv
          (Bool.not_eq_true _ ▸ hrec)] at he
        have := ih { s with
            lastTime := t, lastVoiceTime := t,
            isRecording := true, recordingStartTime := t,
            recordingBuffer := f }
          (fun _ => by simpa using hdur) hchain' e he
        simpa using this
    · have hv' : detectVoiceActivityAgent vad cfg.silenceThreshold f = false :=
        Bool.not_eq_true _ ▸ hv
      by_cases hrec : s.isRecording = true
      · by_cases hto : cfg.silenceDuration ≤ t - s.lastVoiceTime
        · rw [agentStep_silent_final c cfg vad s t f hv' hrec hto] at he
          set s1 : AgentState := { s with lastTime := t } with hs1
          have hfields := stopRecordingAgent_fields c cfg t s1 hrec
          have hstopInv : (stopRecordingAgent c cfg t s1).isRecording = true →
              (stopRecordingAgent c cfg t s1).lastTime
                - (stopRecordingAgent c cfg t s1).lastVoiceTime
                < cfg.silenceDuration := by
            intro habs
            rw [hfields.1] at habs
            exact absurd habs (by simp)
          have hchainStop : gapChain δ
              ((stopRecordingAgent c cfg t s1).lastTime
                :: rest.map Prod.fst) := by
            rw [hfields.2.2]
            exact hchain'
          rcases ih (stopRecordingAgent c cfg t s1) hstopInv hchainStop e he
            with hmem | hgood
          · rw [hfields.2.1] at hmem
            rcases List.mem_append.mp hmem with hold | hnew
            · exact Or.inl hold
            · right
              have henew : e = (t, s.lastVoiceTime) := by simpa using hnew
              subst henew
              have hlt : s.lastTime - s.lastVoiceTime < cfg.silenceDuration :=
                hinv hrec
              have ht2 : t ≤ s.lastTime + δ := hrel.2
              dsimp only
              exact ⟨hto, by linarith⟩
          · exact Or.inr hgood
        · rw [agentStep_silent_rec c cfg vad s t f hv' hrec
            (lt_of_not_le hto)] at he
          have := ih { s with
              lastTime := t,
              recordingBuffer := s.recordingBuffer ++ f }
            (fun _ => by simpa using lt_of_not_le hto) hchain' e he
          simpa using this
      · rw [agentStep_silent_idle c cfg vad s t f hv'
          (Bool.not_eq_true _ ▸ hrec)] at he
        have := ih { s with lastTime := t }
          (fun hr => absurd (by simpa using hr) hrec) hchain' e he
        simpa using this

theorem detect_agent_voiced1 :
    detectVoiceActivityAgent vadNo (1/100) [1/10] = true := by
  simp [detectVoiceActivityAgent, vadNo, energyAboveThr, meanSq, sumSq]
  norm_num

theorem detect_agent_silent1 :
    detectVoiceActivityAgent vadNo (1/100) [0] = false := by
  simp [detectVoiceActivityAgent, vadNo, energyAboveThr, meanSq, sumSq]

theorem agentTinyRun_events :
    (agentRun consumerOk {} vadNo (initAgentAt 0)
      [(0, [1/10]), (1, [0]), (2, [0])]).finalizeEvents = [(2, 0)] := by
  norm_num [agentRun, List.foldl, agentStep, startRecordingAgent,
    stopRecordingAgent, dispatchGateAgent, processAudioAgent, consumerOk,
    initAgentAt, detect_agent_voiced1, detect_agent_silent1]

/-- C1 (amended).  In the capture pipeline's processing loop the claim holds
as stated: a voiced frame refreshes `last_voice_time`, and along any trace
with nondecreasing timestamps and inter-frame gaps ≤ δ, every finalization
happens when the elapsed silence since the most recent voiced frame lies in
[silence_duration, silence_duration + δ).  In the two continuous-dictation
loops, however, a voiced chunk arriving while an utterance is in progress
does **not** reset the silence clock: `silence_start` keeps the time of the
first unvoiced chunk after speech began, so a pause shorter than the
timeout does not restart the silence measurement from zero (see the
counterexample). -/
theorem C1_finalize_timing :
    (∀ (cfg : AgentConfig) (vad : List ℤ → Option Bool)
        (c : List ℚ → Except String Unit) (δ t₀ : ℚ) (f₀ : List ℚ)
        (rest : List (ℚ × List ℚ)),
      0 < cfg.silenceDuration → 0 ≤ δ →
      gapChain δ (((t₀, f₀) :: rest).map Prod.fst) →
      ∀ e ∈ (agentRun c cfg vad (initAgentAt t₀)
          ((t₀, f₀) :: rest)).finalizeEvents,
        cfg.silenceDuration ≤ e.1 - e.2
          ∧ e.1 - e.2 < cfg.silenceDuration + δ)
    ∧ (∀ (s : GtkState) (t : ℚ) (chunk : List ℚ) (s0 : ℚ),
        s.isSpeaking = true → s.silenceStart = some s0 →
        detectVoiceActivityGtk none gtkSampleRate gtkSilenceThreshold chunk
          = true →
        (gtkStep s (t, chunk)).silenceStart = some s0)
    ∧ (∀ (c : List ℚ → Except String Unit) (s : StableState) (t : ℚ)
          (chunk : List ℚ) (s0 : ℚ), chunk.length ≠ 0 →
        s.isSpeaking = true → s.silenceStart = some s0 →
        energyAboveThr stableSilenceThreshold chunk = true →
        (stableStep c s (t, chunk)).silenceStart = some s0) := by
  refine ⟨?_, ?_, ?_⟩
  · intro cfg vad c δ t₀ f₀ rest hdur hδ hchain e he
    have hinv : (initAgentAt t₀).isRecording = true →
        (initAgentAt t₀).lastTime - (initAgentAt t₀).lastVoiceTime
          < cfg.silenceDuration := by
      intro habs
      simp [initAgentAt] at habs
    have hchain2 : gapChain δ ((initAgentAt t₀).lastTime
        :: (((t₀, f₀) :: rest)).map Prod.fst) := by
      simp only [List.map_cons, initAgentAt]
      exact List.chain'_cons.mpr ⟨⟨le_refl _, by linarith⟩, by simpa using hchain⟩
    rcases agentRun_finalize_bound c cfg vad hdur δ ((t₀, f₀) :: rest)
      (initAgentAt t₀) hinv hchain2 e he with hmem | hgood
    · simp [initAgentAt] at hmem
    · exact hgood
  · intro s t chunk s0 hsp hss hv
    simp [gtkStep, hv, hsp, hss]
  · intro c s t chunk s0 hne hsp hss hv
    simp [stableStep, hne, hv, hsp, hss]

/-- C1 witness: a 3-frame run (voiced at t = 0, silence at t = 1 and t = 2,
gaps ≤ 1 s) finalizes at t = 2 with elapsed silence 2 s, inside
[2, 2 + 1); and a voiced chunk at t = 5 in a GTK state whose silence clock
started at t = 1 leaves the clock at 1. -/
theorem C1_finalize_timing_witness :
    (({} : AgentConfig).silenceDuration ≤ ((2 : ℚ), (0 : ℚ)).1 - (2, 0).2
      ∧ ((2 : ℚ), (0 : ℚ)).1 - (2, 0).2 < ({} : AgentConfig).silenceDuration + 1)
    ∧ (gtkStep { isSpeaking := true, silenceStart := some 1 }
        (5, [1/10])).silenceStart = some 1 := by
  constructor
  · refine C1_finalize_timing.1 {} vadNo consumerOk 1 0 [1/10]
      [(1, [0]), (2, [0])] (by norm_num) (by norm_num) ?_ (2, 0) ?_
    · simp [gapChain, List.chain'_cons]
      norm_num
    · rw [agentTinyRun_events]
      simp
  · exact C1_finalize_timing.2.1 _ 5 [1/10] 1 rfl rfl detect_gtk_voiced1

theorem timeS_mono {i j : ℕ} (h : i ≤ j) : timeS i ≤ timeS j := by
  unfold timeS
  have : (i : ℚ) ≤ (j : ℚ) := Nat.cast_le.mpr h
  linarith

theorem segS_cons (a n : ℕ) (ch : List ℚ) :
    segS a (n + 1) ch = (timeS a, ch) :: segS (a + 1) n ch := by
  simp [segS, List.range'_succ]

theorem segS_append (a n m : ℕ) (ch : List ℚ) :
    segS a (m + n) ch = segS a n ch ++ segS (a + n) m ch := by
  unfold segS
  rw [← List.range'_append a n m 1, List.map_append]
  norm_num

theorem stableRun_cons (c : List ℚ → Except String Unit) (s : StableState)
    (p : ℚ × List ℚ) (trace : List (ℚ × List ℚ)) :
    stableRun c s (p :: trace) = stableRun c (stableStep c s p) trace := rfl

theorem stableRun_append (c : List ℚ → Except String Unit) (s : StableState)
    (t1 t2 : List (ℚ × List ℚ)) :
    stableRun c s (t1 ++ t2) = stableRun c (stableRun c s t1) t2 :=
  List.foldl_append _ _ _ _

theorem stableStep_voiced_start (c : List ℚ → Except String Unit)
    (s : StableState) (t : ℚ) (chunk : List ℚ) (hne : chunk.length ≠ 0)
    (hv : energyAboveThr stableSilenceThreshold chunk = true)
    (hsp : s.isSpeaking = false) :
    stableStep c s (t, chunk)
      = { s with isSpeaking := true, silenceStart := none,
                 audioBuffer := chunk } := by
  simp [stableStep, hne, hv, hsp]

theorem stableStep_voiced_speaking (c : List ℚ → Except String Unit)
    (s : StableState) (t : ℚ) (chunk : List ℚ) (hne : chunk.length ≠ 0)
    (hv : energyAboveThr stableSilenceThreshold chunk = true)
    (hsp : s.isSpeaking = true) :
    stableStep c s (t, chunk)
      = { s with audioBuffer := s.audioBuffer ++ chunk } := by
  simp [stableStep, hne, hv, hsp]

theorem stableStep_silent_first (c : List ℚ → Except String Unit)
    (s : StableState) (t : ℚ) (chunk : List ℚ) (hne : chunk.length ≠ 0)
    (hv : energyAboveThr stableSilenceThreshold chunk = false)
    (hsp : s.isSpeaking = true) (hss : s.silenceStart = none) :
    stableStep c s (t, chunk)
      = { s with silenceStart := some t,
                 audioBuffer := s.audioBuffer ++ chunk } := by
  have h0 : ¬ stableSilenceDuration ≤ t - t := by
    norm_num [stableSilenceDuration]
  simp [stableStep, hne, hv, hsp, hss, h0]
  norm_num [stableSilenceDuration]

theorem stableStep_silent_cont (c : List ℚ → Except String Unit)
    (s : StableState) (t : ℚ) (chunk : List ℚ) (s0 : ℚ)
    (hne : chunk.length ≠ 0)
    (hv : energyAboveThr stableSilenceThreshold chunk = false)
    (hsp : s.isSpeaking = true) (hss : s.silenceStart = some s0)
    (hlt : t - s0 < stableSilenceDuration) :
    stableStep c s (t, chunk)
      = { s with silenceStart := some s0,
                 audioBuffer := s.audioBuffer ++ chunk } := by
  simp [stableStep, hne, hv, hsp, hss, not_le.mpr hlt]

theorem dispatchStable_eq (c : List ℚ → Except String Unit)
    (s : StableState) (audio : List ℚ) :
    dispatchStable c s audio
      = { s with finalized := s.finalized ++ [audio],
                 dispatched := s.dispatched
                   ++ (processAudioStable audio).toList } := by
  unfold dispatchStable
  cases hp : processAudioStable audio with
  | none => simp
  | some u =>
    dsimp only
    cases hc : c u with
    | ok v => simp
    | error v => simp

theorem stableStep_silent_final (c : List ℚ → Except String Unit)
    (s : StableState) (t : ℚ) (chunk : List ℚ) (s0 : ℚ)
    (hne : chunk.length ≠ 0)
    (hv : energyAboveThr stableSilenceThreshold chunk = false)
    (hsp : s.isSpeaking = true) (hss : s.silenceStart = some s0)
    (hge : stableSilenceDuration ≤ t - s0) :
    stableStep c s (t, chunk)
      = { s with isSpeaking := false, silenceStart := none,
                 audioBuffer := [],
                 finalized := s.finalized ++ [s.audioBuffer ++ chunk],
                 dispatched := s.dispatched
                   ++ (processAudioStable (s.audioBuffer ++ chunk)).toList } := by
  have hpos : 0 < (s.audioBuffer ++ chunk).length := by
    rw [List.length_append]
    omega
  have hpos' : 0 < s.audioBuffer.length ∨ 0 < chunk.length := Or.inr (by omega)
  simp [stableStep, hne, hv, hsp, hss, hge, hpos, hpos', dispatchStable_eq]

theorem energy_voicedChunkS :
    energyAboveThr stableSilenceThreshold voicedChunkS = true := by
  have hm : meanSq voicedChunkS = (1/10) * (1/10) := by
    rw [voicedChunkS]; exact meanSq_replicate (by norm_num) _
  simp [energyAboveThr, hm, stableSilenceThreshold]
  norm_num

theorem energy_silentChunkS :
    energyAboveThr stableSilenceThreshold silentChunkS = false := by
  have hm : meanSq silentChunkS = 0 * 0 := by
    rw [silentChunkS]; exact meanSq_replicate (by norm_num) _
  simp [energyAboveThr, hm, stableSilenceThreshold]

theorem stableRun_voiced_segS (c : List ℚ → Except String Unit)
    (ch : List ℚ) (hne : ch.length ≠ 0)
    (hv : energyAboveThr stableSilenceThreshold ch = true) :
    ∀ (n a : ℕ) (s : StableState), s.isSpeaking = true →
      stableRun c s (segS a n ch)
        = { s with audioBuffer :=
              s.audioBuffer ++ (List.replicate n ch).flatten } := by
  intro n
  induction n with
  | zero =>
    intro a s _
    simp [segS, stableRun]
  | succ m ih =>
    intro a s hsp
    rw [segS_cons, stableRun_cons,
      stableStep_voiced_speaking c s (timeS a) ch hne hv hsp,
      ih (a + 1) { s with audioBuffer := s.audioBuffer ++ ch } hsp]
    simp only [List.replicate_succ, List.flatten_cons, List.append_assoc]

theorem stableRun_silent_segS (c : List ℚ → Except String Unit)
    (ch : List ℚ) (hne : ch.length ≠ 0)
    (hv : energyAboveThr stableSilenceThreshold ch = false) (s0 : ℚ) :
    ∀ (n a : ℕ) (s : StableState), s.isSpeaking = true →
      s.silenceStart = some s0 → n ≠ 0 →
      timeS (a + n - 1) - s0 < stableSilenceDuration →
      stableRun c s (segS a n ch)
        = { s with silenceStart := some s0,
                   audioBuffer :=
                     s.audioBuffer ++ (List.replicate n ch).flatten } := by
  intro n
  induction n with
  | zero => intro a s _ _ h0; exact absurd rfl h0
  | succ m ih =>
    intro a s hsp hss _ hlt
    have hstep : timeS a - s0 < stableSilenceDuration := by
      have := timeS_mono (show a ≤ a + (m + 1) - 1 by omega)
      linarith
    rw [segS_cons, stableRun_cons,
      stableStep_silent_cont c s (timeS a) ch s0 hne hv hsp hss hstep]
    rcases Nat.eq_zero_or_pos m with hm | hm
    · subst hm
      simp [segS, stableRun]
    · rw [ih (a + 1)
        { s with silenceStart := some s0,
                 audioBuffer := s.audioBuffer ++ ch } hsp rfl hm.ne'
        (show timeS (a + 1 + m - 1) - s0 < stableSilenceDuration by
          have harith0 : a + 1 + m - 1 = a + (m + 1) - 1 := by omega
          rw [harith0]; exact hlt)]
      simp only [List.replicate_succ, List.flatten_cons, List.append_assoc]

theorem stableTruncate_C2 :
    stableTruncate
        (List.replicate 320000 (1/10 : ℚ) ++ List.replicate 33600 0)
      = List.replicate 240000 (1/10 : ℚ) := by
  unfold stableTruncate
  rw [List.length_append, List.length_replicate, List.length_replicate]
  rw [if_pos (by norm_num [stableSampleRate, stableMaxDuration])]
  rw [List.take_append_of_le_length
      (by rw [List.length_replicate]; norm_num [stableMaxSamples]),
    List.take_replicate]
  congr 1

theorem processAudioStable_C2 :
    processAudioStable
        (List.replicate 320000 (1/10 : ℚ) ++ List.replicate 33600 0)
      = some (List.replicate 240000 (9/10)) := by
  have h1 : (List.replicate 320000 (1/10 : ℚ)).all
      (fun x => decide (x = 0)) = false := by
    rw [List.all_replicate]
    rw [if_neg (by norm_num)]
    exact decide_eq_false (by norm_num)
  have hall : (List.replicate 320000 (1/10 : ℚ)
      ++ List.replicate 33600 (0:ℚ)).all (fun x => decide (x = 0))
      = false := by
    rw [List.all_append, h1, Bool.false_and]
  have hms : meanSq (List.replicate 240000 (1/10 : ℚ)) = (1/10) * (1/10) :=
    meanSq_replicate (by norm_num) _
  have hnorm : normalizeStable (List.replicate 240000 (1/10 : ℚ))
      = List.replicate 240000 (9/10) := by
    unfold normalizeStable
    rw [maxAbs_replicate (by norm_num) _]
    rw [if_pos (by norm_num)]
    rw [List.map_replicate]
    congr 1
    rw [abs_of_pos (by norm_num : (0:ℚ) < 1/10)]
    norm_num
  unfold processAudioStable
  rw [hall, stableTruncate_C2, hms, hnorm]
  rw [List.length_append, List.length_replicate, List.length_replicate]
  rw [if_neg (by norm_num), if_neg (by simp),
    if_neg (by norm_num [stableSampleRate, stableMinDuration]),
    if_neg (by norm_num)]

theorem voicedChunkS_ne : voicedChunkS.length ≠ 0 := by
  rw [voicedChunkS, List.length_replicate]
  norm_num

theorem silentChunkS_ne : silentChunkS.length ≠ 0 := by
  rw [silentChunkS, List.length_replicate]
  norm_num

theorem stableC2_buffer_eq :
    (((voicedChunkS ++ (List.replicate 199 voicedChunkS).flatten)
        ++ silentChunkS) ++ (List.replicate 19 silentChunkS).flatten)
      ++ silentChunkS
    = List.replicate 320000 (1/10 : ℚ) ++ List.replicate 33600 0 := by
  rw [voicedChunkS, silentChunkS, List.flatten_replicate_replicate,
    List.flatten_replicate_replicate]
  rw [← List.replicate_add]
  rw [List.append_assoc, ← List.replicate_add]
  rw [List.append_assoc, ← List.replicate_add]

theorem stableC2_voiced_run :
    stableRun consumerOk {} stableC2Voiced
      = { isSpeaking := true, silenceStart := none,
          audioBuffer := voicedChunkS
            ++ (List.replicate 199 voicedChunkS).flatten,
          finalized := [], dispatched := [] } := by
  have hsplit : stableC2Voiced
      = (timeS 0, voicedChunkS) :: segS 1 199 voicedChunkS := by
    have h := segS_cons 0 199 voicedChunkS
    norm_num at h
    exact h
  rw [hsplit, stableRun_cons,
    stableStep_voiced_start consumerOk {} (timeS 0) voicedChunkS
      voicedChunkS_ne energy_voicedChunkS rfl]
  exact stableRun_voiced_segS consumerOk voicedChunkS voicedChunkS_ne
    energy_voicedChunkS 199 1 _ rfl

theorem stableC2_run :
    stableRun consumerOk {} stableC2Trace
      = { isSpeaking := false, silenceStart := none, audioBuffer := [],
          finalized := [List.replicate 320000 (1/10 : ℚ)
            ++ List.replicate 33600 0],
          dispatched := [List.replicate 240000 (9/10)] } := by
  have hsplit : segS 200 21 silentChunkS
      = ((timeS 200, silentChunkS) :: segS 201 19 silentChunkS)
        ++ [(timeS 220, silentChunkS)] := by
    have h1 := segS_append 200 20 1 silentChunkS
    have h2 := segS_cons 200 19 silentChunkS
    have h3 : segS 220 1 silentChunkS = [(timeS 220, silentChunkS)] := by
      simp [segS, List.range']
    norm_num at h1 h2
    rw [h1, h2, h3]
  have r2 : stableStep consumerOk
      { isSpeaking := true, silenceStart := none,
        audioBuffer := voicedChunkS
          ++ (List.replicate 199 voicedChunkS).flatten,
        finalized := [], dispatched := [] } (timeS 200, silentChunkS)
      = { isSpeaking := true, silenceStart := some (timeS 200),
          audioBuffer := (voicedChunkS
            ++ (List.replicate 199 voicedChunkS).flatten) ++ silentChunkS,
          finalized := [], dispatched := [] } := by
    rw [stableStep_silent_first consumerOk _ (timeS 200) silentChunkS
      silentChunkS_ne energy_silentChunkS rfl rfl]
  have r3 : stableRun consumerOk
      { isSpeaking := true, silenceStart := some (timeS 200),
        audioBuffer := (voicedChunkS
          ++ (List.replicate 199 voicedChunkS).flatten) ++ silentChunkS,
        finalized := [], dispatched := [] } (segS 201 19 silentChunkS)
      = { isSpeaking := true, silenceStart := some (timeS 200),
          audioBuffer := ((voicedChunkS
            ++ (List.replicate 199 voicedChunkS).flatten) ++ silentChunkS)
            ++ (List.replicate 19 silentChunkS).flatten,
          finalized := [], dispatched := [] } := by
    rw [stableRun_silent_segS consumerOk silentChunkS silentChunkS_ne
      energy_silentChunkS (timeS 200) 19 201 _ rfl rfl (by norm_num)
      (by norm_num [timeS, stableSilenceDuration])]
  have r23 : stableRun consumerOk
      { isSpeaking := true, silenceStart := none,
        audioBuffer := voicedChunkS
          ++ (List.replicate 199 voicedChunkS).flatten,
        finalized := [], dispatched := [] }
      ((timeS 200, silentChunkS) :: segS 201 19 silentChunkS)
      = { isSpeaking := true, silenceStart := some (timeS 200),
          audioBuffer := ((voicedChunkS
            ++ (List.replicate 199 voicedChunkS).flatten) ++ silentChunkS)
            ++ (List.replicate 19 silentChunkS).flatten,
          finalized := [], dispatched := [] } := by
    rw [stableRun_cons, r2, r3]
  have r4 : stableStep consumerOk
      { isSpeaking := true, silenceStart := some (timeS 200),
        audioBuffer := ((voicedChunkS
          ++ (List.replicate 199 voicedChunkS).flatten) ++ silentChunkS)
          ++ (List.replicate 19 silentChunkS).flatten,
        finalized := [], dispatched := [] } (timeS 220, silentChunkS)
      = { isSpeaking := false, silenceStart := none, audioBuffer := [],
          finalized := [List.replicate 320000 (1/10 : ℚ)
            ++ List.replicate 33600 0],
          dispatched := [List.replicate 240000 (9/10)] } := by
    rw [stableStep_silent_final consumerOk _ (timeS 220) silentChunkS
      (timeS 200) silentChunkS_ne energy_silentChunkS rfl rfl
      (by norm_num [timeS, stableSilenceDuration])]
    dsimp only
    rw [stableC2_buffer_eq, processAudioStable_C2]
    rfl
  have r5 : stableRun consumerOk
      { isSpeaking := true, silenceStart := some (timeS 200),
        audioBuffer := ((voicedChunkS
          ++ (List.replicate 199 voicedChunkS).flatten) ++ silentChunkS)
          ++ (List.replicate 19 silentChunkS).flatten,
        finalized := [], dispatched := [] } [(timeS 220, silentChunkS)]
      = { isSpeaking := false, silenceStart := none, audioBuffer := [],
          finalized := [List.replicate 320000 (1/10 : ℚ)
            ++ List.replicate 33600 0],
          dispatched := [List.replicate 240000 (9/10)] } := by
    rw [stableRun_cons, r4]
    rfl
  rw [stableC2Trace, stableRun_append, stableC2_voiced_run, hsplit,
    stableRun_append, r23, r5]

theorem normalizeStable_length (audio : List ℚ) :
    (normalizeStable audio).length = audio.length := by
  unfold normalizeStable
  dsimp only
  split <;> simp

theorem stableTruncate_length (audio : List ℚ) :
    (stableTruncate audio).length ≤ stableMaxSamples := by
  unfold stableTruncate
  split
  · rw [List.length_take]
    exact min_le_left _ _
  · rename_i h
    rw [not_lt] at h
    rw [div_le_iff₀ (by norm_num [stableSampleRate] :
        (0:ℚ) < (stableSampleRate : ℚ))] at h
    norm_num [stableSampleRate, stableMaxDuration] at h
    rw [stableMaxSamples]
    exact h

/-- C2 counterexample: feed the stable continuous loop 20 s of uninterrupted
above-threshold chunks.  No forced split happens at the 15 s cap: after the
20 s the loop is still in a single RECORDING stretch, nothing has been
dispatched, and the accumulated buffer holds all 320000 samples — 20 s,
past the cap.  When 2.1 s of silence then flushes the utterance, exactly
*one* utterance reaches the transcriber: the first 15 s (240000 samples,
normalized); the remaining 5 s of voiced samples are discarded by
truncation, not re-dispatched as a continuation — so the input does not
yield two or more contiguous dispatched utterances as claimed. -/
theorem C2_counterexample :
    (stableRun consumerOk {} stableC2Voiced).dispatched = []
    ∧ (stableRun consumerOk {} stableC2Voiced).isSpeaking = true
    ∧ (stableRun consumerOk {} stableC2Voiced).audioBuffer.length = 320000
    ∧ (stableRun consumerOk {} stableC2Trace).dispatched
        = [List.replicate 240000 (9/10)]
    ∧ ¬ 2 ≤ (stableRun consumerOk {} stableC2Trace).dispatched.length := by
  refine ⟨?_, ?_, ?_, ?_, ?_⟩
  · rw [stableC2_voiced_run]
  · rw [stableC2_voiced_run]
  · rw [stableC2_voiced_run]
    show (voicedChunkS ++ (List.replicate 199 voicedChunkS).flatten).length
      = 320000
    rw [voicedChunkS, List.flatten_replicate_replicate, List.length_append,
      List.length_replicate, List.length_replicate]
  · rw [stableC2_run]
  · rw [stableC2_run]
    norm_num

/-- C2 (amended).  Neither segmentation loop force-finalizes at the
maximum-duration cap: a voiced chunk never dispatches or finalizes anything
in the stable loop (RECORDING simply continues, however long), and likewise
a voiced frame never dispatches in the capture pipeline's loop, which has
no cap at all.  The stable variant enforces its 15 s cap only at the
dispatch stage, by truncating the finalized utterance to its first
`max_samples` = 240000 samples and discarding the rest, so every utterance
handed to the transcriber has at most 240000 samples. -/
theorem C2_cap_by_truncation :
    (∀ (c : List ℚ → Except String Unit) (s : StableState) (t : ℚ)
        (chunk : List ℚ),
      energyAboveThr stableSilenceThreshold chunk = true →
      (stableStep c s (t, chunk)).dispatched = s.dispatched
        ∧ (stableStep c s (t, chunk)).finalized = s.finalized)
    ∧ (∀ (audio u : List ℚ), processAudioStable audio = some u →
        u.length ≤ stableMaxSamples)
    ∧ (∀ (c : List ℚ → Except String Unit) (cfg : AgentConfig)
          (vad : List ℤ → Option Bool) (s : AgentState) (t : ℚ)
          (frame : List ℚ),
        detectVoiceActivityAgent vad cfg.silenceThreshold frame = true →
        (agentStep c cfg vad s (t, frame)).dispatched = s.dispatched) := by
  refine ⟨?_, ?_, ?_⟩
  · intro c s t chunk hv
    by_cases hne : chunk.length = 0
    · simp [stableStep, hne]
    · unfold stableStep
      rw [if_neg hne, if_pos hv]
      dsimp only
      split <;> exact ⟨rfl, rfl⟩
  · intro audio u h
    unfold processAudioStable at h
    split at h
    · exact absurd h (by simp)
    · split at h
      · exact absurd h (by simp)
      · split at h
        · exact absurd h (by simp)
        · split at h
          · exact absurd h (by simp)
          · have hu : u = normalizeStable (stableTruncate audio) :=
              (Option.some.injEq _ _ ▸ h).symm
            rw [hu, normalizeStable_length]
            exact stableTruncate_length audio
  · intro c cfg vad s t frame hv
    unfold agentStep startRecordingAgent
    dsimp only
    rw [if_pos hv]
    dsimp only
    split <;> rfl

/-- C2 witness: the truncated 15 s utterance of the counterexample scenario
respects the cap, and a voiced chunk fed to a fresh stable loop dispatches
nothing. -/
theorem C2_cap_by_truncation_witness :
    (List.replicate 240000 ((9:ℚ)/10)).length ≤ stableMaxSamples
    ∧ (stableStep consumerOk {} (0, voicedChunkS)).dispatched = [] :=
  ⟨C2_cap_by_truncation.2.1 _ _ processAudioStable_C2,
   (C2_cap_by_truncation.1 consumerOk {} 0 voicedChunkS
     energy_voicedChunkS).1⟩

/-- C3 counterexample: a 1.5 s utterance of constant tiny amplitude 1/2000
is at or above the stable pipeline's 1.0 s minimum-duration floor, yet it is
*not* dispatched: `_process_audio_stable` additionally drops audio whose rms
energy is below 0.001 (here rms = 0.0005), so meeting the duration floor
does not guarantee dispatch. -/
theorem C3_counterexample :
    stableMinDuration ≤ (quietAudioC3.length : ℚ) / (stableSampleRate : ℚ)
    ∧ processAudioStable quietAudioC3 = none := by
  have hlen : quietAudioC3.length = 24000 := by
    rw [quietAudioC3, List.length_replicate]
  constructor
  · rw [hlen]
    norm_num [stableMinDuration, stableSampleRate]
  · have htr : stableTruncate quietAudioC3 = quietAudioC3 := by
      unfold stableTruncate
      rw [hlen]
      rw [if_neg (by norm_num [stableSampleRate, stableMaxDuration])]
    have hms : meanSq quietAudioC3 = (1/2000) * (1/2000) := by
      rw [quietAudioC3]
      exact meanSq_replicate (by norm_num) _
    have hall : quietAudioC3.all (fun x => decide (x = 0)) = false := by
      rw [quietAudioC3, List.all_replicate, if_neg (by norm_num)]
      exact decide_eq_false (by norm_num)
    unfold processAudioStable
    rw [hlen, hall, htr, hms]
    rw [if_neg (by norm_num), if_neg (by simp),
      if_neg (by norm_num [stableSampleRate, stableMinDuration]),
      if_pos (by norm_num)]

theorem stopRecordingAgent_dispatched_mem (c : List ℚ → Except String Unit)
    (cfg : AgentConfig) (t : ℚ) (s : AgentState) :
    ∀ u ∈ (stopRecordingAgent c cfg t s).dispatched,
      u ∈ s.dispatched
        ∨ ¬ (u.length : ℚ) / (cfg.sampleRate : ℚ) < 1/2 := by
  intro u hu
  unfold stopRecordingAgent at hu
  by_cases hrec : s.isRecording = true
  · rw [if_pos hrec] at hu
    dsimp only at hu
    by_cases hlen : 0 < s.recordingBuffer.length
    · rw [if_pos hlen] at hu
      unfold dispatchGateAgent at hu
      rcases hp : processAudioAgent cfg s.recordingBuffer with _ | v
      · rw [hp] at hu
        exact Or.inl hu
      · rw [hp] at hu
        dsimp only at hu
        have hv : v = s.recordingBuffer
            ∧ ¬ (s.recordingBuffer.length : ℚ) / (cfg.sampleRate : ℚ)
              < 1/2 := by
          unfold processAudioAgent at hp
          split at hp
          · exact absurd hp (by simp)
          · rename_i hcond
            exact ⟨(Option.some.injEq _ _ ▸ hp).symm, hcond⟩
        cases hc : c v <;> rw [hc] at hu <;>
        · dsimp only at hu
          rcases List.mem_append.mp hu with hl | hr
          · exact Or.inl hl
          · right
            have : u = v := by simpa using hr
            rw [this, hv.1]
            exact hv.2
    · rw [if_neg hlen] at hu
      exact Or.inl hu
  · rw [if_neg hrec] at hu
    exact Or.inl hu

theorem agentStep_dispatched_mem (c : List ℚ → Except String Unit)
    (cfg : AgentConfig) (vad : List ℤ → Option Bool) (s : AgentState)
    (tf : ℚ × List ℚ) :
    ∀ u ∈ (agentStep c cfg vad s tf).dispatched,
      u ∈ s.dispatched
        ∨ ¬ (u.length : ℚ) / (cfg.sampleRate : ℚ) < 1/2 := by
  obtain ⟨t, f⟩ := tf
  intro u hu
  by_cases hv : detectVoiceActivityAgent vad cfg.silenceThreshold f = true
  · by_cases hrec : s.isRecording = true
    · rw [agentStep_voiced_rec c cfg vad s t f hv hrec] at hu
      exact Or.inl hu
    · rw [agentStep_voiced_idle c cfg vad s t f hv
        (Bool.not_eq_true _ ▸ hrec)] at hu
      exact Or.inl hu
  · have hv' : detectVoiceActivityAgent vad cfg.silenceThreshold f = false :=
      Bool.not_eq_true _ ▸ hv
    by_cases hrec : s.isRecording = true
    · by_cases hto : cfg.silenceDuration ≤ t - s.lastVoiceTime
      · rw [agentStep_silent_final c cfg vad s t f hv' hrec hto] at hu
        have := stopRecordingAgent_dispatched_mem c cfg t
          { s with lastTime := t } u hu
        simpa using this
      · rw [agentStep_silent_rec c cfg vad s t f hv' hrec
          (lt_of_not_le hto)] at hu
        exact Or.inl hu
    · rw [agentStep_silent_idle c cfg vad s t f hv'
        (Bool.not_eq_true _ ▸ hrec)] at hu
      exact Or.inl hu

theorem agentRun_dispatched_floor (c : List ℚ → Except String Unit)
    (cfg : AgentConfig) (vad : List ℤ → Option Bool) :
    ∀ (trace : List (ℚ × List ℚ)) (s : AgentState),
      (∀ u ∈ s.dispatched, ¬ (u.length : ℚ) / (cfg.sampleRate : ℚ) < 1/2) →
      ∀ u ∈ (agentRun c cfg vad s trace).dispatched,
        ¬ (u.length : ℚ) / (cfg.sampleRate : ℚ) < 1/2 := by
  intro trace
  induction trace with
  | nil => intro s hs u hu; exact hs u hu
  | cons p rest ih =>
    intro s hs u hu
    rw [agentRun_cons] at hu
    refine ih (agentStep c cfg vad s p) ?_ u hu
    intro w hw
    rcases agentStep_dispatched_mem c cfg vad s p w hw with hl | hr
    · exact hs w hl
    · exact hr

/-- C3 (amended).  An utterance below the duration floor is never handed to
the consumer: the capture pipeline's `_process_audio` drops audio shorter
than 0.5 s and dispatches everything at or above that floor unchanged, and
along any run of its processing loop every dispatched utterance meets the
floor.  The stable variant drops audio shorter than its 1.0 s floor — but
meeting the floor there does not guarantee dispatch, since all-zero and
low-energy (rms < 0.001) utterances are additionally discarded (see the
counterexample). -/
theorem C3_duration_floor :
    (∀ (cfg : AgentConfig) (audio : List ℚ),
        (audio.length : ℚ) / (cfg.sampleRate : ℚ) < 1/2 →
        processAudioAgent cfg audio = none)
    ∧ (∀ (cfg : AgentConfig) (audio : List ℚ),
        ¬ (audio.length : ℚ) / (cfg.sampleRate : ℚ) < 1/2 →
        processAudioAgent cfg audio = some audio)
    ∧ (∀ (c : List ℚ → Except String Unit) (cfg : AgentConfig)
          (vad : List ℤ → Option Bool) (trace : List (ℚ × List ℚ)),
        ∀ u ∈ (agentRun c cfg vad {} trace).dispatched,
          ¬ (u.length : ℚ) / (cfg.sampleRate : ℚ) < 1/2)
    ∧ (∀ audio : List ℚ,
        (audio.length : ℚ) / (stableSampleRate : ℚ) < stableMinDuration →
        processAudioStable audio = none) := by
  refine ⟨?_, ?_, ?_, ?_⟩
  · intro cfg audio h
    unfold processAudioAgent
    rw [if_pos h]
  · intro cfg audio h
    unfold processAudioAgent
    rw [if_neg h]
  · intro c cfg vad trace
    exact agentRun_dispatched_floor c cfg vad trace {} (by simp)
  · intro audio h
    unfold processAudioStable
    by_cases h0 : audio.length = 0
    · rw [if_pos h0]
    · rw [if_neg h0]
      by_cases hz : audio.all (fun x => decide (x = 0)) = true
      · rw [if_pos hz]
      · rw [if_neg hz, if_pos h]

/-- C3 witness: a 0.25 s utterance (4000 samples at 16 kHz) is dropped by
the capture pipeline, and a 1 s utterance (16000 samples) is dispatched;
a 0.5 s utterance (8000 samples) is below the stable variant's 1.0 s floor
and is dropped there. -/
theorem C3_duration_floor_witness :
    processAudioAgent {} (List.replicate 4000 (1/10 : ℚ)) = none
    ∧ processAudioAgent {} (List.replicate 16000 (1/10 : ℚ))
        = some (List.replicate 16000 (1/10 : ℚ))
    ∧ processAudioStable (List.replicate 8000 (1/10 : ℚ)) = none := by
  refine ⟨?_, ?_, ?_⟩
  · exact C3_duration_floor.1 {} _ (by
      rw [List.length_replicate]
      show ((4000:ℕ) : ℚ) / ((16000:ℕ) : ℚ) < 1/2
      norm_num)
  · exact C3_duration_floor.2.1 {} _ (by
      rw [List.length_replicate]
      show ¬ ((16000:ℕ) : ℚ) / ((16000:ℕ) : ℚ) < 1/2
      norm_num)
  · exact C3_duration_floor.2.2.2 _ (by
      rw [List.length_replicate]
      norm_num [stableSampleRate, stableMinDuration])

theorem dispatchGateAgent_consumer_irrelevant
    (c c' : List ℚ → Except String Unit) (cfg : AgentConfig)
    (s : AgentState) (a : List ℚ) :
    dispatchGateAgent c cfg s a = dispatchGateAgent c' cfg s a := by
  unfold dispatchGateAgent
  cases hp : processAudioAgent cfg a with
  | none => rfl
  | some u =>
    dsimp only
    cases c u <;> cases c' u <;> rfl

theorem stopRecordingAgent_consumer_irrelevant
    (c c' : List ℚ → Except String Unit) (cfg : AgentConfig) (t : ℚ)
    (s : AgentState) :
    stopRecordingAgent c cfg t s = stopRecordingAgent c' cfg t s := by
  unfold stopRecordingAgent
  simp only [dispatchGateAgent_consumer_irrelevant c c' cfg]

theorem agentStep_consumer_irrelevant
    (c c' : List ℚ → Except String Unit) (cfg : AgentConfig)
    (vad : List ℤ → Option Bool) (s : AgentState) (tf : ℚ × List ℚ) :
    agentStep c cfg vad s tf = agentStep c' cfg vad s tf := by
  unfold agentStep
  simp only [stopRecordingAgent_consumer_irrelevant c c' cfg]

theorem dispatchStable_consumer_irrelevant
    (c c' : List ℚ → Except String Unit) (s : StableState) (a : List ℚ) :
    dispatchStable c s a = dispatchStable c' s a := by
  rw [dispatchStable_eq, dispatchStable_eq]

theorem stableStep_consumer_irrelevant
    (c c' : List ℚ → Except String Unit) (s : StableState)
    (tc : ℚ × List ℚ) :
    stableStep c s tc = stableStep c' s tc := by
  unfold stableStep
  simp only [dispatchStable_consumer_irrelevant c c']

/-- C4.  A consumer exception is caught at the dispatch boundary and never
unwinds into the segmentation loop: a run of the capture pipeline's
processing loop, and a run of the stable continuous loop, produce exactly
the same state — the same subsequent segmentation, the same finalized and
dispatched utterances (including utterance N+1 after a failure on
utterance N) — for *any* two consumer callbacks, in particular for one
that always raises and one that always succeeds. -/
theorem C4_consumer_exception_isolation :
    (∀ (cfg : AgentConfig) (vad : List ℤ → Option Bool)
        (c c' : List ℚ → Except String Unit) (s : AgentState)
        (trace : List (ℚ × List ℚ)),
      agentRun c cfg vad s trace = agentRun c' cfg vad s trace)
    ∧ (∀ (c c' : List ℚ → Except String Unit) (s : StableState)
        (trace : List (ℚ × List ℚ)),
      stableRun c s trace = stableRun c' s trace) := by
  constructor
  · intro cfg vad c c' s trace
    induction trace generalizing s with
    | nil => rfl
    | cons p rest ih =>
      rw [agentRun_cons, agentRun_cons,
        agentStep_consumer_irrelevant c c' cfg vad s p]
      exact ih _
  · intro c c' s trace
    induction trace generalizing s with
    | nil => rfl
    | cons p rest ih =>
      rw [stableRun_cons, stableRun_cons,
        stableStep_consumer_irrelevant c c' s p]
      exact ih _

theorem gtkStep_voiced_start (s : GtkState) (t : ℚ) (chunk : List ℚ)
    (hv : detectVoiceActivityGtk none gtkSampleRate gtkSilenceThreshold chunk
      = true) (hsp : s.isSpeaking = false) :
    gtkStep s (t, chunk)
      = { s with speechFrames := s.speechFrames + 1, silenceFrames := 0,
                 lastVoiced := t, isSpeaking := true, silenceStart := none,
                 audioBuffer := chunk } := by
  simp [gtkStep, hv, hsp]

theorem gtkStep_voiced_speaking (s : GtkState) (t : ℚ) (chunk : List ℚ)
    (hv : detectVoiceActivityGtk none gtkSampleRate gtkSilenceThreshold chunk
      = true) (hsp : s.isSpeaking = true) :
    gtkStep s (t, chunk)
      = { s with speechFrames := s.speechFrames + 1, silenceFrames := 0,
                 lastVoiced := t,
                 audioBuffer := s.audioBuffer ++ chunk } := by
  simp [gtkStep, hv, hsp]

theorem gtkStep_silent_idle (s : GtkState) (t : ℚ) (chunk : List ℚ)
    (hv : detectVoiceActivityGtk none gtkSampleRate gtkSilenceThreshold chunk
      = false) (hsp : s.isSpeaking = false) :
    gtkStep s (t, chunk)
      = { s with silenceFrames := s.silenceFrames + 1 } := by
  simp [gtkStep, hv, hsp]

theorem gtkStep_silent_cont (s : GtkState) (t : ℚ) (chunk : List ℚ)
    (hv : detectVoiceActivityGtk none gtkSampleRate gtkSilenceThreshold chunk
      = false) (hsp : s.isSpeaking = true)
    (hlt : ¬ gtkSilenceDuration ≤ t - s.silenceStart.getD t) :
    gtkStep s (t, chunk)
      = { s with silenceFrames := s.silenceFrames + 1,
                 silenceStart := some (s.silenceStart.getD t),
                 audioBuffer := s.audioBuffer ++ chunk } := by
  simp [gtkStep, hv, hsp, hlt]

theorem gtkStep_silent_final (s : GtkState) (t : ℚ) (chunk : List ℚ)
    (hv : detectVoiceActivityGtk none gtkSampleRate gtkSilenceThreshold chunk
      = false) (hsp : s.isSpeaking = true)
    (hge : gtkSilenceDuration ≤ t - s.silenceStart.getD t)
    (hpos : 0 < (s.audioBuffer ++ chunk).length) :
    gtkStep s (t, chunk)
      = { s with isSpeaking := false, silenceStart := none,
                 audioBuffer := [], speechFrames := 0, silenceFrames := 0,
                 dispatched := s.dispatched ++ [s.audioBuffer ++ chunk],
                 finalizeEvents :=
                   s.finalizeEvents ++ [(t, s.lastVoiced)] } := by
  have hpos' : 0 < s.audioBuffer.length ∨ 0 < chunk.length := by
    rw [List.length_append] at hpos
    omega
  simp [gtkStep, hv, hsp, hge, hpos']

theorem gtkStep_silent_final_empty (s : GtkState) (t : ℚ) (chunk : List ℚ)
    (hv : detectVoiceActivityGtk none gtkSampleRate gtkSilenceThreshold chunk
      = false) (hsp : s.isSpeaking = true)
    (hge : gtkSilenceDuration ≤ t - s.silenceStart.getD t)
    (hpos : ¬ 0 < (s.audioBuffer ++ chunk).length) :
    gtkStep s (t, chunk)
      = { s with isSpeaking := false, silenceStart := none,
                 audioBuffer := [], speechFrames := 0, silenceFrames := 0,
                 finalizeEvents :=
                   s.finalizeEvents ++ [(t, s.lastVoiced)] } := by
  have hpos' : ¬ (0 < s.audioBuffer.length ∨ 0 < chunk.length) := by
    rw [List.length_append] at hpos
    omega
  simp [gtkStep, hv, hsp, hge, hpos']

theorem stopRecordingAgent_dispatched_sub (c : List ℚ → Except String Unit)
    (cfg : AgentConfig) (t : ℚ) (s : AgentState) :
    ∀ u ∈ (stopRecordingAgent c cfg t s).dispatched,
      u ∈ s.dispatched ∨ u = s.recordingBuffer := by
  intro u hu
  unfold stopRecordingAgent at hu
  by_cases hrec : s.isRecording = true
  · rw [if_pos hrec] at hu
    dsimp only at hu
    by_cases hlen : 0 < s.recordingBuffer.length
    · rw [if_pos hlen] at hu
      unfold dispatchGateAgent at hu
      rcases hp : processAudioAgent cfg s.recordingBuffer with _ | v
      · rw [hp] at hu
        exact Or.inl hu
      · rw [hp] at hu
        dsimp only at hu
        have hv : v = s.recordingBuffer := by
          unfold processAudioAgent at hp
          split at hp
          · exact absurd hp (by simp)
          · exact (Option.some.injEq _ _ ▸ hp).symm
        cases hc : c v <;> rw [hc] at hu <;>
        · dsimp only at hu
          rcases List.mem_append.mp hu with hl | hr
          · exact Or.inl hl
          · right
            have : u = v := by simpa using hr
            rw [this, hv]
    · rw [if_neg hlen] at hu
      exact Or.inl hu
  · rw [if_neg hrec] at hu
    exact Or.inl hu

theorem agentStep_beginsVoiced (c : List ℚ → Except String Unit)
    (cfg : AgentConfig) (vad : List ℤ → Option Bool) (s : AgentState)
    (tf : ℚ × List ℚ)
    (hbuf : s.isRecording = true →
      beginsWithDetected (detectVoiceActivityAgent vad cfg.silenceThreshold)
        s.recordingBuffer)
    (hd : ∀ u ∈ s.dispatched,
      beginsWithDetected (detectVoiceActivityAgent vad cfg.silenceThreshold)
        u) :
    ((agentStep c cfg vad s tf).isRecording = true →
      beginsWithDetected (detectVoiceActivityAgent vad cfg.silenceThreshold)
        (agentStep c cfg vad s tf).recordingBuffer)
    ∧ (∀ u ∈ (agentStep c cfg vad s tf).dispatched,
        beginsWithDetected
          (detectVoiceActivityAgent vad cfg.silenceThreshold) u) := by
  obtain ⟨t, f⟩ := tf
  by_cases hv : detectVoiceActivityAgent vad cfg.silenceThreshold f = true
  · by_cases hrec : s.isRecording = true
    · rw [agentStep_voiced_rec c cfg vad s t f hv hrec]
      obtain ⟨g, r, hgr, hg⟩ := hbuf hrec
      exact ⟨fun _ => ⟨g, r ++ f, by rw [hgr, List.append_assoc], hg⟩, hd⟩
    · rw [agentStep_voiced_idle c cfg vad s t f hv
        (Bool.not_eq_true _ ▸ hrec)]
      exact ⟨fun _ => ⟨f, [], (List.append_nil f).symm, hv⟩, hd⟩
  · have hv' : detectVoiceActivityAgent vad cfg.silenceThreshold f = false :=
      Bool.not_eq_true _ ▸ hv
    by_cases hrec : s.isRecording = true
    · by_cases hto : cfg.silenceDuration ≤ t - s.lastVoiceTime
      · rw [agentStep_silent_final c cfg vad s t f hv' hrec hto]
        constructor
        · intro habs
          rw [(stopRecordingAgent_fields c cfg t
            { s with lastTime := t } hrec).1] at habs
          exact absurd habs (by simp)
        · intro u hu
          rcases stopRecordingAgent_dispatched_sub c cfg t
            { s with lastTime := t } u hu with hl | hr
          · exact hd u hl
          · rw [hr]
            exact hbuf hrec
      · rw [agentStep_silent_rec c cfg vad s t f hv' hrec
          (lt_of_not_le hto)]
        obtain ⟨g, r, hgr, hg⟩ := hbuf hrec
        exact ⟨fun _ => ⟨g, r ++ f, by rw [hgr, List.append_assoc], hg⟩, hd⟩
    · rw [agentStep_silent_idle c cfg vad s t f hv'
        (Bool.not_eq_true _ ▸ hrec)]
      exact ⟨fun habs => absurd habs hrec, hd⟩

theorem agentRun_beginsVoiced (c : List ℚ → Except String Unit)
    (cfg : AgentConfig) (vad : List ℤ → Option Bool) :
    ∀ (trace : List (ℚ × List ℚ)) (s : AgentState),
      (s.isRecording = true →
        beginsWithDetected
          (detectVoiceActivityAgent vad cfg.silenceThreshold)
          s.recordingBuffer) →
      (∀ u ∈ s.dispatched,
        beginsWithDetected
          (detectVoiceActivityAgent vad cfg.silenceThreshold) u) →
      ∀ u ∈ (agentRun c cfg vad s trace).dispatched,
        beginsWithDetected
          (detectVoiceActivityAgent vad cfg.silenceThreshold) u := by
  intro trace
  induction trace with
  | nil => intro s _ hd u hu; exact hd u hu
  | cons p rest ih =>
    intro s hbuf hd u hu
    rw [agentRun_cons] at hu
    obtain ⟨hbuf', hd'⟩ := agentStep_beginsVoiced c cfg vad s p hbuf hd
    exact ih _ hbuf' hd' u hu

theorem gtkStep_beginsVoiced (s : GtkState) (tc : ℚ × List ℚ)
    (hbuf : s.isSpeaking = true →
      beginsWithDetected
        (detectVoiceActivityGtk none gtkSampleRate gtkSilenceThreshold)
        s.audioBuffer)
    (hd : ∀ u ∈ s.dispatched,
      beginsWithDetected
        (detectVoiceActivityGtk none gtkSampleRate gtkSilenceThreshold) u) :
    ((gtkStep s tc).isSpeaking = true →
      beginsWithDetected
        (detectVoiceActivityGtk none gtkSampleRate gtkSilenceThreshold)
        (gtkStep s tc).audioBuffer)
    ∧ (∀ u ∈ (gtkStep s tc).dispatched,
        beginsWithDetected
          (detectVoiceActivityGtk none gtkSampleRate gtkSilenceThreshold)
          u) := by
  obtain ⟨t, chunk⟩ := tc
  by_cases hv : detectVoiceActivityGtk none gtkSampleRate
      gtkSilenceThreshold chunk = true
  · by_cases hsp : s.isSpeaking = true
    · rw [gtkStep_voiced_speaking s t chunk hv hsp]
      obtain ⟨g, r, hgr, hg⟩ := hbuf hsp
      exact ⟨fun _ => ⟨g, r ++ chunk, by rw [hgr, List.append_assoc], hg⟩,
        hd⟩
    · rw [gtkStep_voiced_start s t chunk hv (Bool.not_eq_true _ ▸ hsp)]
      exact ⟨fun _ => ⟨chunk, [], (List.append_nil chunk).symm, hv⟩, hd⟩
  · have hv' : detectVoiceActivityGtk none gtkSampleRate
        gtkSilenceThreshold chunk = false := Bool.not_eq_true _ ▸ hv
    by_cases hsp : s.isSpeaking = true
    · by_cases hge : gtkSilenceDuration ≤ t - s.silenceStart.getD t
      · by_cases hpos : 0 < (s.audioBuffer ++ chunk).length
        · rw [gtkStep_silent_final s t chunk hv' hsp hge hpos]
          refine ⟨fun habs => absurd habs (by simp), ?_⟩
          intro u hu
          rcases List.mem_append.mp hu with hl | hr
          · exact hd u hl
          · obtain ⟨g, r, hgr, hg⟩ := hbuf hsp
            have : u = s.audioBuffer ++ chunk := by simpa using hr
            exact ⟨g, r ++ chunk, by rw [this, hgr, List.append_assoc], hg⟩
        · rw [gtkStep_silent_final_empty s t chunk hv' hsp hge hpos]
          exact ⟨fun habs => absurd habs (by simp), hd⟩
      · rw [gtkStep_silent_cont s t chunk hv' hsp hge]
        obtain ⟨g, r, hgr, hg⟩ := hbuf hsp
        exact ⟨fun _ => ⟨g, r ++ chunk, by rw [hgr, List.append_assoc], hg⟩,
          hd⟩
    · rw [gtkStep_silent_idle s t chunk hv' (Bool.not_eq_true _ ▸ hsp)]
      exact ⟨fun habs => absurd habs hsp, hd⟩

theorem gtkRun_beginsVoiced :
    ∀ (trace : List (ℚ × List ℚ)) (s : GtkState),
      (s.isSpeaking = true →
        beginsWithDetected
          (detectVoiceActivityGtk none gtkSampleRate gtkSilenceThreshold)
          s.audioBuffer) →
      (∀ u ∈ s.dispatched,
        beginsWithDetected
          (detectVoiceActivityGtk none gtkSampleRate gtkSilenceThreshold)
          u) →
      ∀ u ∈ (gtkRun s trace).dispatched,
        beginsWithDetected
          (detectVoiceActivityGtk none gtkSampleRate gtkSilenceThreshold)
          u := by
  intro trace
  induction trace with
  | nil => intro s _ hd u hu; exact hd u hu
  | cons p rest ih =>
    intro s hbuf hd u hu
    obtain ⟨hbuf', hd'⟩ := gtkStep_beginsVoiced s p hbuf hd
    exact ih _ hbuf' hd' u hu

theorem stableStep_beginsVoiced (c : List ℚ → Except String Unit)
    (s : StableState) (tc : ℚ × List ℚ)
    (hbuf : s.isSpeaking = true →
      beginsWithDetected (energyAboveThr stableSilenceThreshold)
        s.audioBuffer)
    (hd : ∀ u ∈ s.finalized,
      beginsWithDetected (energyAboveThr stableSilenceThreshold) u) :
    ((stableStep c s tc).isSpeaking = true →
      beginsWithDetected (energyAboveThr stableSilenceThreshold)
        (stableStep c s tc).audioBuffer)
    ∧ (∀ u ∈ (stableStep c s tc).finalized,
        beginsWithDetected (energyAboveThr stableSilenceThreshold) u) := by
  obtain ⟨t, chunk⟩ := tc
  by_cases hne : chunk.length = 0
  · have hstep : stableStep c s (t, chunk) = s := by simp [stableStep, hne]
    rw [hstep]
    exact ⟨hbuf, hd⟩
  · by_cases hv : energyAboveThr stableSilenceThreshold chunk = true
    · by_cases hsp : s.isSpeaking = true
      · rw [stableStep_voiced_speaking c s t chunk hne hv hsp]
        obtain ⟨g, r, hgr, hg⟩ := hbuf hsp
        exact ⟨fun _ => ⟨g, r ++ chunk, by rw [hgr, List.append_assoc], hg⟩,
          hd⟩
      · rw [stableStep_voiced_start c s t chunk hne hv
          (Bool.not_eq_true _ ▸ hsp)]
        exact ⟨fun _ => ⟨chunk, [], (List.append_nil chunk).symm, hv⟩, hd⟩
    · have hv' : energyAboveThr stableSilenceThreshold chunk = false :=
        Bool.not_eq_true _ ▸ hv
      by_cases hsp : s.isSpeaking = true
      · cases hss : s.silenceStart with
        | none =>
          rw [stableStep_silent_first c s t chunk hne hv' hsp hss]
          obtain ⟨g, r, hgr, hg⟩ := hbuf hsp
          exact ⟨fun _ => ⟨g, r ++ chunk,
            by rw [hgr, List.append_assoc], hg⟩, hd⟩
        | some s0 =>
          by_cases hge : stableSilenceDuration ≤ t - s0
          · rw [stableStep_silent_final c s t chunk s0 hne hv' hsp hss hge]
            refine ⟨fun habs => absurd habs (by simp), ?_⟩
            intro u hu
            rcases List.mem_append.mp hu with hl | hr
            · exact hd u hl
            · obtain ⟨g, r, hgr, hg⟩ := hbuf hsp
              have : u = s.audioBuffer ++ chunk := by simpa using hr
              exact ⟨g, r ++ chunk,
                by rw [this, hgr, List.append_assoc], hg⟩
          · rw [stableStep_silent_cont c s t chunk s0 hne hv' hsp hss
              (lt_of_not_le hge)]
            obtain ⟨g, r, hgr, hg⟩ := hbuf hsp
            exact ⟨fun _ => ⟨g, r ++ chunk,
              by rw [hgr, List.append_assoc], hg⟩, hd⟩
      · have hstep : stableStep c s (t, chunk) = s := by
          simp [stableStep, hne, hv', hsp]
        rw [hstep]
        exact ⟨hbuf, hd⟩

theorem stableRun_beginsVoiced (c : List ℚ → Except String Unit) :
    ∀ (trace : List (ℚ × List ℚ)) (s : StableState),
      (s.isSpeaking = true →
        beginsWithDetected (energyAboveThr stableSilenceThreshold)
          s.audioBuffer) →
      (∀ u ∈ s.finalized,
        beginsWithDetected (energyAboveThr stableSilenceThreshold) u) →
      ∀ u ∈ (stableRun c s trace).finalized,
        beginsWithDetected (energyAboveThr stableSilenceThreshold) u := by
  intro trace
  induction trace with
  | nil => intro s _ hd u hu; exact hd u hu
  | cons p rest ih =>
    intro s hbuf hd u hu
    obtain ⟨hbuf', hd'⟩ := stableStep_beginsVoiced c s p hbuf hd
    exact ih _ hbuf' hd' u hu

/-- C10.  Every utterance handed onward by any of the three segmentation
loops begins with a frame classified as speech: frames arriving while IDLE
are discarded and the accumulator is reset at the IDLE→RECORDING
transition, so starting from the initial idle state, every utterance the
capture pipeline hands to its transcription callback, every buffer the GTK
loop hands to `_process_continuous_audio`, and every buffer the stable loop
hands to `_process_audio_stable`, has a speech-classified frame as its
prefix — no pre-speech audio is included. -/
theorem C10_no_prespeech_audio :
    (∀ (c : List ℚ → Except String Unit) (cfg : AgentConfig)
        (vad : List ℤ → Option Bool) (trace : List (ℚ × List ℚ)),
      ∀ u ∈ (agentRun c cfg vad {} trace).dispatched,
        beginsWithDetected
          (detectVoiceActivityAgent vad cfg.silenceThreshold) u)
    ∧ (∀ trace : List (ℚ × List ℚ),
        ∀ u ∈ (gtkRun {} trace).dispatched,
          beginsWithDetected
            (detectVoiceActivityGtk none gtkSampleRate gtkSilenceThreshold)
            u)
    ∧ (∀ (c : List ℚ → Except String Unit) (trace : List (ℚ × List ℚ)),
        ∀ u ∈ (stableRun c {} trace).finalized,
          beginsWithDetected (energyAboveThr stableSilenceThreshold) u) := by
  refine ⟨?_, ?_, ?_⟩
  · intro c cfg vad trace
    exact agentRun_beginsVoiced c cfg vad trace {}
      (fun habs => absurd habs (by simp)) (by simp)
  · intro trace
    exact gtkRun_beginsVoiced trace {}
      (fun habs => absurd habs (by simp)) (by simp)
  · intro c trace
    exact stableRun_beginsVoiced c trace {}
      (fun habs => absurd habs (by simp)) (by simp)

/-- C10 witness: in a 3-frame run of the capture pipeline (a voiced frame
at t = 0, silent frames at t = 3 and t = 5, with a 1-sample-per-frame toy
rate so the duration floor is met), the dispatched utterance [1/10] begins
with a speech-classified frame. -/
theorem C10_no_prespeech_audio_witness :
    beginsWithDetected
      (detectVoiceActivityAgent vadNo
        ({ sampleRate := 1 } : AgentConfig).silenceThreshold) [1/10] :=
  C10_no_prespeech_audio.1 consumerOk { sampleRate := 1 } vadNo
    [(0, [1/10]), (3, [0]), (5, [0])] [1/10] (by
      norm_num [agentRun, List.foldl, agentStep, startRecordingAgent,
        stopRecordingAgent, dispatchGateAgent, processAudioAgent,
        consumerOk, detect_agent_voiced1, detect_agent_silent1])
